import Mathlib

/-!
# Donation lifecycle and settlement pipeline

A shallow embedding of `internal/donates` (entity `donates.go`, mongo-backed
`storage/storage.go`, service `usecase/usecase.go`) and theorems about it.

Modelling conventions

* The mongo collection `donates` is a list of well-typed donation documents, in
  insertion (natural) order.
* Go `uint64` amounts are `Nat`, Go `int`/`int64` values are `Int`; the sources
  perform no integer arithmetic of their own (sums and counts are computed by
  the database). The database's `$sum` is a 64-bit integer only within the
  `int64` range; outside it the value is a double and the type assertion
  `.(int64)` of `GetDonatesSum` panics.
* A Go `error` result is `Option GoError` (`none` is `nil`); a `(T, error)`
  result is `Except GoError T`.
* Nil-able arguments (`ctx`, `*Donate`, slices, maps) are `Option`s.
* What the outside world answers during one operation (clock, id generator,
  driver / queue / collaborator failures) is an explicit `Env` argument.
* Every call made to a collaborator is recorded, in order, in a `Call` trace.
  Logger calls are not recorded.
* Functions of repository packages that are not among the sources
  (`svcerror.HandleError`, `dberror.ErrMongoHandle`, the `payment` codec and
  its status constants) are parameters, collected in `Deps`.
-/

set_option autoImplicit false

/-! ## Errors -/

/-- Error classes of the service (taxonomy of the error packages). -/
inductive ErrKind
  | Internal
  | InvalidParams
  | Malformed
  | NotFound
  | Conflict
  deriving DecidableEq, Repr

/-- A Go `error` value. -/
inductive GoError
  /-- an error built by package `svcerror` -/
  | svc (kind : ErrKind) (msg : String)
  /-- an error built by package `dberror` -/
  | db (kind : ErrKind) (msg : String)
  /-- an error returned by an external library (mongo driver, redis, json) -/
  | driver (msg : String)
  /-- the driver's `mongo.ErrNoDocuments` -/
  | noDocuments
  /-- a run-time panic (failed type assertion) -/
  | panic (msg : String)
  deriving DecidableEq, Repr

/-- The `Error()` text of an error, as printed by `%s`. -/
def GoError.Error : GoError → String
  | .svc _ msg => msg
  | .db _ msg => msg
  | .driver msg => msg
  | .noDocuments => "mongo: no documents in result"
  | .panic msg => msg

namespace svcerror

/-- Modelled from the spec: package `svcerror` is not among the sources;
`ErrInternal(msg)` builds an error of class `Internal` (spec section 7). -/
def ErrInternal (msg : String) : GoError := .svc .Internal msg

/-- Modelled from the spec: package `svcerror` is not among the sources;
`ErrInvalidParams(msg)` builds an error of class `InvalidParams` (spec section 7). -/
def ErrInvalidParams (msg : String) : GoError := .svc .InvalidParams msg

/-- Modelled from the spec: package `svcerror` is not among the sources;
`ErrMalformed(msg)` builds an error of class `Malformed` (spec section 7). -/
def ErrMalformed (msg : String) : GoError := .svc .Malformed msg

end svcerror

namespace dberror

/-- Modelled from the spec: package `dberror` is not among the sources;
`ErrInternal(msg)` builds a storage error of class `Internal` (spec section 7). -/
def ErrInternal (msg : String) : GoError := .db .Internal msg

end dberror

/-! ## The donation entity (`donates.go`) -/

namespace donates

/-- Go `type Status int`. -/
abbrev Status := Int

/-- newly created donate -/
def New : Status := 0
/-- set after payment provider initialized new payout, waiting client's actions -/
def Pending : Status := 1
/-- set after successful payment -/
def Confirmed : Status := 2
/-- failed payments, don't show to users -/
def Failed : Status := 3

/-- A `time.Time` instant, as a tick count. -/
abbrev Time := Nat

/-- The `Donate` record. -/
structure Donate where
  ID : String
  From : String
  To : String
  Amount : Nat
  Status : donates.Status
  Post : String
  CreatedAt : Time
  UpdatedAt : Time
  deriving DecidableEq, Repr

/-- The `Short` projection. -/
structure Short where
  ID : String
  Amount : Nat
  deriving DecidableEq, Repr

/-- Method `func (d *Donate) Short() *Short`. -/
def Donate.Short (d : Donate) : donates.Short :=
  { ID := d.ID, Amount := d.Amount }

/-- Function `func NewDonate(from, to, post string, amount uint64) *Donate`; `now` is
the value of `time.Now()` and `xid` the value of `xid.New().String()`. -/
def NewDonate (now : Time) (xid : String) (from_ to_ post : String) (amount : Nat) : Donate :=
  { ID := xid
    From := from_
    To := to_
    Amount := amount
    Status := New
    Post := post
    CreatedAt := now
    UpdatedAt := now }

end donates

open donates

/-! ## Documents, filters and the collection -/

/-- A BSON / `interface{}` value as used by the sources. -/
inductive Value
  | str (s : String)
  | int (n : Int)
  | time (t : Time)
  deriving DecidableEq, Repr

/-- Type `bson.M`, that is `map[string]interface`: a finite map with string keys. -/
abbrev M := List (String × Value)

/-- Map assignment `m[k] = v`. -/
def setKey (m : M) (k : String) (v : Value) : M :=
  if m.any (fun kv => kv.1 == k) then
    m.map (fun kv => if kv.1 = k then (k, v) else kv)
  else
    m ++ [(k, v)]

/-- The document field stored under a `bson` tag of `Donate`. -/
def donates.Donate.field (d : Donate) (key : String) : Option Value :=
  if key = "id" then some (.str d.ID)
  else if key = "from" then some (.str d.From)
  else if key = "to" then some (.str d.To)
  else if key = "amount" then some (.int d.Amount)
  else if key = "status" then some (.int d.Status)
  else if key = "post" then some (.str d.Post)
  else if key = "created" then some (.time d.CreatedAt)
  else if key = "updated" then some (.time d.UpdatedAt)
  else none

/-- Assignment of one document field (one entry of `$set`). The collection
holds well-typed donation documents only: the result is `none` when the
assigned value does not have the field's type, or the key is no field. -/
def donates.Donate.setField (d : Donate) (key : String) (v : Value) : Option Donate :=
  match v with
  | .str s =>
    if key = "id" then some { d with ID := s }
    else if key = "from" then some { d with From := s }
    else if key = "to" then some { d with To := s }
    else if key = "post" then some { d with Post := s }
    else none
  | .int n =>
    if key = "status" then some { d with Status := n }
    else if key = "amount" then (if 0 ≤ n then some { d with Amount := n.toNat } else none)
    else none
  | .time t =>
    if key = "created" then some { d with CreatedAt := t }
    else if key = "updated" then some { d with UpdatedAt := t }
    else none

namespace mongo

/-- The collection `donates`, in natural order. -/
abbrev Collection := List Donate

/-- Whether a document satisfies an equality filter. -/
def matchDoc (filter : M) (d : Donate) : Bool :=
  filter.all (fun kv => d.field kv.1 == some kv.2)

/-- The update document `$set: update` applied to a document. -/
def applySet (d : Donate) (update : M) : Option Donate :=
  update.foldlM (fun acc kv => acc.setField kv.1 kv.2) d

/-- Driver call `Collection.InsertOne`: the driver either fails with `err` and inserts
nothing, or appends the document and reports `insertedID`. -/
def InsertOne (err : Option GoError) (insertedID : Option String)
    (coll : Collection) (d : Donate) : Except GoError (Option String) × Collection :=
  match err with
  | some e => (.error e, coll)
  | none => (.ok insertedID, coll ++ [d])

/-- Driver call `Collection.Find` with an equality filter. -/
def Find (err : Option GoError) (coll : Collection) (filter : M) :
    Except GoError (List Donate) :=
  match err with
  | some e => .error e
  | none => .ok (coll.filter (matchDoc filter))

/-- Driver call `Collection.Find` with the filter `key: $in: vs`. -/
def FindIn (err : Option GoError) (coll : Collection) (key : String) (vs : List Value) :
    Except GoError (List Donate) :=
  match err with
  | some e => .error e
  | none => .ok (coll.filter (fun d => match d.field key with
                                        | some v => decide (v ∈ vs)
                                        | none => false))

/-- Driver call `Cursor.All`: decode the whole result set, or fail with `err`. -/
def CursorAll {α : Type} (err : Option GoError) (docs : List α) : Except GoError (List α) :=
  match err with
  | some e => .error e
  | none => .ok docs

/-- Driver call `Collection.CountDocuments`. -/
def CountDocuments (err : Option GoError) (coll : Collection) (filter : M) :
    Except GoError Int :=
  match err with
  | some e => .error e
  | none => .ok ((coll.filter (matchDoc filter)).length : Int)

/-- Driver call `Collection.Distinct`: the distinct values of `fieldName` among the
documents that satisfy `filter`. -/
def Distinct (err : Option GoError) (coll : Collection) (fieldName : String) (filter : M) :
    Except GoError (List Value) :=
  match err with
  | some e => .error e
  | none => .ok (((coll.filter (matchDoc filter)).filterMap (fun d => d.field fieldName)).dedup)

/-- The integer held by a numeric value (`0` for a non-numeric one, as `$sum`
ignores non-numeric values). -/
def numeric : Option Value → Int
  | some (.int n) => n
  | _ => 0

/-- The largest `int64`. -/
def maxInt64 : Int := 2 ^ 63 - 1

/-- The smallest `int64`. -/
def minInt64 : Int := -(2 ^ 63)

/-- The numeric value an aggregation stage yields. -/
inductive Number
  /-- a 64-bit integer (BSON long), decoded as Go `int64` -/
  | long (n : Int)
  /-- a floating point number (BSON double), decoded as Go `float64` -/
  | double
  deriving DecidableEq, Repr

/-- Driver call `Collection.Aggregate` with the pipeline
`[$match: filter, $group: (_id: nil, total: $sum: $fieldName)]`: no group when
nothing matches, otherwise the single group's `total`. The amounts are stored
as 64-bit integers; their `$sum` is a 64-bit integer as long as it is in the
`int64` range, and a double once it leaves that range. -/
def AggregateSum (err : Option GoError) (coll : Collection) (filter : M) (fieldName : String) :
    Except GoError (List Number) :=
  match err with
  | some e => .error e
  | none =>
    let matched := coll.filter (matchDoc filter)
    if matched.isEmpty then .ok []
    else
      let total := (matched.map (fun d => numeric (d.field fieldName))).sum
      if minInt64 ≤ total ∧ total ≤ maxInt64 then .ok [.long total] else .ok [.double]

/-- Replace the first document that satisfies `p` by its image under `f`. -/
def updateFirst (p : Donate → Bool) (f : Donate → Donate) : Collection → Collection
  | [] => []
  | d :: rest => if p d then f d :: rest else d :: updateFirst p f rest

/-- Driver call `Collection.FindOneAndUpdate(filter, $set: update)` with
`ReturnDocument: After`, followed by `Decode`: the first matching document is
updated in place and returned; without a match the result is
`ErrNoDocuments`. An update that would leave the document ill-typed is outside
the model (the sources issue none) and is reported as a decode failure. -/
def FindOneAndUpdate (err : Option GoError) (coll : Collection) (filter : M) (update : M) :
    Except GoError Donate × Collection :=
  match err with
  | some e => (.error e, coll)
  | none =>
    match coll.find? (matchDoc filter) with
    | none => (.error .noDocuments, coll)
    | some d =>
      match applySet d update with
      | none => (.error (.driver "cannot decode document"), coll)
      | some d2 => (.ok d2, updateFirst (matchDoc filter) (fun _ => d2) coll)

end mongo

/-! ## Collaborators -/

/-- A `context.Context`; it carries the session's user id. -/
structure Context where
  userID : String
  deriving DecidableEq, Repr

/-- The value of `context.TODO()`. -/
def Context.TODO : Context := { userID := "" }

namespace payment

/-- Modelled from the spec: package `payment` is not among the sources; the
outbound payment request is the record of order id, payer id and amount in
minor units (spec section 6). -/
structure Payment where
  OrderID : String
  PayerID : String
  Amount : Nat
  deriving DecidableEq, Repr

/-- Modelled from the spec: package `payment` is not among the sources;
`NewPayment(orderID, payerID, amount)` builds the payment request of these
three values (spec sections 4.2 and 6). -/
def NewPayment (orderID payerID : String) (amount : Nat) : Payment :=
  { OrderID := orderID, PayerID := payerID, Amount := amount }

/-- Modelled from the spec: package `payment` is not among the sources; the
inbound settlement event carries an order id, an integer status and a url
(spec section 6); the fields are the ones the reconciliation loop reads. -/
structure PaymentUpdate where
  OrderID : String
  Status : Int
  Url : String
  deriving DecidableEq, Repr

/-- The numeric values of the constants `payment.Processing`,
`payment.Confirmed` and `payment.Failed`, whose declaration is not among the
sources. -/
structure StatusCodes where
  Processing : Int
  Confirmed : Int
  Failed : Int
  deriving DecidableEq, Repr

/-- The cases of a Go expression switch are distinct constants. -/
def StatusCodes.Distinct (c : StatusCodes) : Prop :=
  c.Processing ≠ c.Confirmed ∧ c.Processing ≠ c.Failed ∧ c.Confirmed ≠ c.Failed

instance (c : StatusCodes) : Decidable c.Distinct := by
  unfold StatusCodes.Distinct
  exact inferInstance

/-- Modelled from the spec: the constants `payment.Processing`,
`payment.Confirmed` and `payment.Failed` are not among the sources. The spec
has the loop write the event's status into the record and then branch on the
record's new status Pending / Confirmed / Failed (section 4.4, 2b and 2c), and
has a Confirmed event make the donation count as confirmed (scenario B): each
payment status is the donation status it settles to. -/
def specStatusCodes : StatusCodes :=
  { Processing := donates.Pending, Confirmed := donates.Confirmed, Failed := donates.Failed }

end payment

namespace messagequeue

/-- The two topics of the settlement queue. -/
inductive Topic
  | PAYMENT_TO
  | PAYMENT_FROM
  deriving DecidableEq, Repr

end messagequeue

namespace event

/-- Notification kinds used by the donation service. -/
inductive Kind
  | PaymentUpdate
  deriving DecidableEq, Repr

end event

/-- Repository code that is not among the sources, taken as parameters. -/
structure Deps where
  /-- function `svcerror.HandleError(err, format, args...)`, applied to the error and the formatted text -/
  HandleError : GoError → String → GoError
  /-- function `dberror.ErrMongoHandle(err, format, args...)`, applied to the error and the formatted text -/
  ErrMongoHandle : GoError → String → GoError
  /-- function `payment.PackPaymentEvent` -/
  PackPaymentEvent : payment.Payment → Except GoError String
  /-- function `payment.UnpackPaymentEvent` -/
  UnpackPaymentEvent : String → Except GoError payment.PaymentUpdate
  /-- the constants `payment.Processing`, `payment.Confirmed`, `payment.Failed` -/
  status : payment.StatusCodes

/-- What the outside world answers during one operation. -/
structure Env where
  /-- the reading of the wall clock, `time.Now()` -/
  now : Time
  /-- the identifier the generator hands out, `xid.New().String()` -/
  xid : String
  /-- the error of the mongo driver call, if it fails -/
  mongoErr : Option GoError
  /-- the error of `cursor.All`, if it fails -/
  cursorErr : Option GoError
  /-- the `InsertedID` of the driver's insert result -/
  insertedID : Option String
  /-- the error of `mq.Pub`, if it fails -/
  pubErr : Option GoError
  /-- the error of `events.DonateUser`, if it fails -/
  donateUserErr : Option GoError
  /-- the error of `notifications.Notify`, if it fails -/
  notifyErr : Option GoError

/-- An environment in which every external call succeeds. -/
def Env.ok : Env :=
  { now := 0, xid := "xid0", mongoErr := none, cursorErr := none, insertedID := some "oid",
    pubErr := none, donateUserErr := none, notifyErr := none }

/-- A call made to a collaborator of the service. -/
inductive Call
  | storageCreate (donate : Donate)
  | storageGetByIDs (ids : List String)
  | storageGetNumber (user : String)
  | storageGetDonators (uniq : String) (filter : M)
  | storageGetDonatesSum (user : String)
  | storageUpdate (donateID : String) (update : M)
  | mqPub (topic : messagequeue.Topic) (msg : String)
  | mqSub (topic : messagequeue.Topic)
  | eventsDonateUser (sender recipient : String) (short : Short)
  | notificationsNotify (kind : event.Kind) (payload : M) (user : String)
  deriving DecidableEq, Repr

/-- The result of an operation: what it returns, the collection afterwards,
and the calls it made, in order. -/
structure Outcome (α : Type) where
  result : α
  coll : mongo.Collection
  calls : List Call

/-! ## The store (`storage/storage.go`) -/

namespace storage

open mongo

/-- Method `storageImpl.Create`. -/
def storageImpl.Create (deps : Deps) (env : Env) (coll : Collection) (donate : Donate) :
    Option GoError × Collection :=
  match InsertOne env.mongoErr env.insertedID coll donate with
  | (.error err, coll1) =>
    (some (deps.ErrMongoHandle err ("mongo.InsertOne err: " ++ err.Error)), coll1)
  | (.ok insertedID, coll1) =>
    if insertedID = none then
      (some (dberror.ErrInternal "inserted id is empty"), coll1)
    else
      (none, coll1)

/-- Method `storageImpl.GetByUser`. -/
def storageImpl.GetByUser (deps : Deps) (env : Env) (coll : Collection) (user : String) :
    Except GoError (List Donate) :=
  match Find env.mongoErr coll [("to", .str user)] with
  | .error err => .error (deps.ErrMongoHandle err ("mongo.Find err: " ++ err.Error))
  | .ok cursor =>
    match CursorAll env.cursorErr cursor with
    | .error err => .error (dberror.ErrInternal ("can't get donates from cursor: " ++ err.Error))
    | .ok result => .ok result

/-- Method `storageImpl.GetByIDs`. -/
def storageImpl.GetByIDs (deps : Deps) (env : Env) (coll : Collection) (ids : List String) :
    Except GoError (List Donate) :=
  match FindIn env.mongoErr coll "id" (ids.map Value.str) with
  | .error err => .error (deps.ErrMongoHandle err ("mongo.Find err: " ++ err.Error))
  | .ok cursor =>
    match CursorAll env.cursorErr cursor with
    | .error err => .error (dberror.ErrInternal ("can't get donates from cursor: " ++ err.Error))
    | .ok result => .ok result

/-- Method `storageImpl.GetNumber`. -/
def storageImpl.GetNumber (deps : Deps) (env : Env) (coll : Collection) (user : String) :
    Except GoError Int :=
  match CountDocuments env.mongoErr coll [("to", .str user), ("status", .int 2)] with
  | .error err => .error (deps.ErrMongoHandle err ("mongo.Count err: " ++ err.Error))
  | .ok result => .ok result

/-- The type assertion `d.(string)`. -/
def assertString : Value → Except GoError String
  | .str s => .ok s
  | _ => .error (.panic "interface conversion: interface is not string")

/-- Method `storageImpl.GetDonators`. -/
def storageImpl.GetDonators (deps : Deps) (env : Env) (coll : Collection)
    (uniq : String) (filter : M) : Except GoError (List String) :=
  let filter := setKey filter "status" (.int 2)
  match Distinct env.mongoErr coll uniq filter with
  | .error err => .error (deps.ErrMongoHandle err ("mongo.Distinct err: " ++ err.Error))
  | .ok donators =>
    donators.foldlM (fun result d => (assertString d).map (fun s => result ++ [s])) []

/-- The type assertion `result[0]["total"].(int64)`. -/
def assertInt64 : mongo.Number → Except GoError Int
  | .long n => .ok n
  | .double => .error (.panic "interface conversion: interface is float64, not int64")

/-- Method `storageImpl.GetDonatesSum`. -/
def storageImpl.GetDonatesSum (deps : Deps) (env : Env) (coll : Collection) (user : String) :
    Except GoError Int :=
  match AggregateSum env.mongoErr coll [("to", .str user), ("status", .int 2)] "amount" with
  | .error err => .error (deps.ErrMongoHandle err ("mongo.Aggregate err: " ++ err.Error))
  | .ok cursor =>
    match CursorAll env.cursorErr cursor with
    | .error err => .error (dberror.ErrInternal ("cursor.All err: " ++ err.Error))
    | .ok result =>
      match result with
      | [group] => assertInt64 group
      | _ => .ok 0

/-- Method `storageImpl.Update`. -/
def storageImpl.Update (deps : Deps) (env : Env) (coll : Collection)
    (donateID : String) (update : M) : Except GoError Donate × Collection :=
  match FindOneAndUpdate env.mongoErr coll [("id", .str donateID)] update with
  | (.error err, coll1) =>
    (.error (deps.ErrMongoHandle err ("mongo.UpdateOne err: " ++ err.Error)), coll1)
  | (.ok donate, coll1) => (.ok donate, coll1)

end storage

/-! ## The service (`usecase/usecase.go`) -/

namespace usecase

open mongo storage svcerror

/-- The constant `minDonateValue = 50 * 100`. -/
def minDonateValue : Nat := 50 * 100

/-- Method `useCaseImpl.MakeDonate`. -/
def useCaseImpl.MakeDonate (deps : Deps) (env : Env) (coll : Collection)
    (ctx : Option Context) (donate : Option Donate) : Outcome (Option GoError) :=
  match ctx, donate with
  | none, _ => ⟨some (ErrInternal "ctx is empty"), coll, []⟩
  | some _, none => ⟨some (ErrInvalidParams "donate is empty"), coll, []⟩
  | some _, some donate =>
    if donate.To = "" then
      ⟨some (ErrInvalidParams "author is empty"), coll, []⟩
    else if donate.Amount < minDonateValue then
      ⟨some (ErrInvalidParams "amount is less than minimum available value"), coll, []⟩
    else
      -- Create new donate with "new" status
      match storageImpl.Create deps env coll donate with
      | (some err, coll1) =>
        ⟨some (deps.HandleError err ("can't create new donate: " ++ err.Error)), coll1,
          [.storageCreate donate]⟩
      | (none, coll1) =>
        -- Create new payment
        let newPayment := payment.NewPayment donate.ID donate.From donate.Amount
        match deps.PackPaymentEvent newPayment with
        | .error err =>
          ⟨some (ErrInternal ("can't pack donate event: " ++ err.Error)), coll1,
            [.storageCreate donate]⟩
        | .ok paymentEvent =>
          match env.pubErr with
          | some err =>
            ⟨some (ErrInternal ("can't send donate event to mq: " ++ err.Error)), coll1,
              [.storageCreate donate, .mqPub .PAYMENT_TO paymentEvent]⟩
          | none =>
            ⟨none, coll1, [.storageCreate donate, .mqPub .PAYMENT_TO paymentEvent]⟩

/-- Method `useCaseImpl.UpdateDonate`: update donate status from payment
status (`payment.OrderID == donate.ID`). -/
def useCaseImpl.UpdateDonate (deps : Deps) (env : Env) (coll : Collection)
    (ctx : Option Context) (donateID : String) (update : Option M) :
    Outcome (Except GoError Donate) :=
  match ctx, update with
  | none, _ => ⟨.error (ErrInternal "ctx is empty"), coll, []⟩
  | some _, none => ⟨.error (ErrInternal "update is empty"), coll, []⟩
  | some _, some update =>
    match storageImpl.Update deps env coll donateID update with
    | (.error err, coll1) =>
      ⟨.error (deps.HandleError err ("can't update donate info: " ++ err.Error)), coll1,
        [.storageUpdate donateID update]⟩
    | (.ok donate, coll1) => ⟨.ok donate, coll1, [.storageUpdate donateID update]⟩

/-- Method `useCaseImpl.GetDonatesNumber`. -/
def useCaseImpl.GetDonatesNumber (deps : Deps) (env : Env) (coll : Collection)
    (ctx : Option Context) (userID : String) : Outcome (Except GoError Int) :=
  match ctx with
  | none => ⟨.error (ErrInternal "ctx is empty"), coll, []⟩
  | some _ =>
    if userID = "" then ⟨.error (ErrInvalidParams "userID is empty"), coll, []⟩
    else
      match storageImpl.GetNumber deps env coll userID with
      | .error err =>
        ⟨.error (deps.HandleError err ("can't get number of donates: " ++ err.Error)), coll,
          [.storageGetNumber userID]⟩
      | .ok num => ⟨.ok num, coll, [.storageGetNumber userID]⟩

/-- Method `useCaseImpl.GetUserDonators`: list of uniq userIDs that make
donation to the user. A panic raised in the store is no error value: it passes
through unhandled. -/
def useCaseImpl.GetUserDonators (deps : Deps) (env : Env) (coll : Collection)
    (ctx : Option Context) (user : String) : Outcome (Except GoError (List String)) :=
  match ctx with
  | none => ⟨.error (ErrInternal "ctx is empty"), coll, []⟩
  | some _ =>
    if user = "" then ⟨.error (ErrInvalidParams "user is empty"), coll, []⟩
    else
      match storageImpl.GetDonators deps env coll "from" [("to", .str user)] with
      | .error (.panic msg) =>
        ⟨.error (.panic msg), coll, [.storageGetDonators "from" [("to", .str user)]]⟩
      | .error err =>
        ⟨.error (deps.HandleError err ("can't get donators: " ++ err.Error)), coll,
          [.storageGetDonators "from" [("to", .str user)]]⟩
      | .ok users => ⟨.ok users, coll, [.storageGetDonators "from" [("to", .str user)]]⟩

/-- Method `useCaseImpl.GetPostDonators`: list of uniq userIDs that make
donation to the post. A panic raised in the store is no error value: it passes
through unhandled. -/
def useCaseImpl.GetPostDonators (deps : Deps) (env : Env) (coll : Collection)
    (ctx : Option Context) (post : String) : Outcome (Except GoError (List String)) :=
  match ctx with
  | none => ⟨.error (ErrInternal "ctx is empty"), coll, []⟩
  | some _ =>
    if post = "" then ⟨.error (ErrInvalidParams "post is empty"), coll, []⟩
    else
      match storageImpl.GetDonators deps env coll "from" [("post", .str post)] with
      | .error (.panic msg) =>
        ⟨.error (.panic msg), coll, [.storageGetDonators "from" [("post", .str post)]]⟩
      | .error err =>
        ⟨.error (deps.HandleError err ("can't get donators: " ++ err.Error)), coll,
          [.storageGetDonators "from" [("post", .str post)]]⟩
      | .ok users => ⟨.ok users, coll, [.storageGetDonators "from" [("post", .str post)]]⟩

/-- Method `useCaseImpl.GetUsersReceivedDonations`: list of uniq userIDs to
whom user donated. A panic raised in the store is no error value: it passes
through unhandled. -/
def useCaseImpl.GetUsersReceivedDonations (deps : Deps) (env : Env) (coll : Collection)
    (ctx : Option Context) (user : String) : Outcome (Except GoError (List String)) :=
  match ctx with
  | none => ⟨.error (ErrInternal "ctx is empty"), coll, []⟩
  | some _ =>
    if user = "" then ⟨.error (ErrInvalidParams "user is empty"), coll, []⟩
    else
      match storageImpl.GetDonators deps env coll "to" [("from", .str user)] with
      | .error (.panic msg) =>
        ⟨.error (.panic msg), coll, [.storageGetDonators "to" [("from", .str user)]]⟩
      | .error err =>
        ⟨.error (deps.HandleError err ("can't get donators: " ++ err.Error)), coll,
          [.storageGetDonators "to" [("from", .str user)]]⟩
      | .ok users => ⟨.ok users, coll, [.storageGetDonators "to" [("from", .str user)]]⟩

/-- Method `useCaseImpl.GetAmountOfDonations`. A panic raised in the store is
no error value: it passes through unhandled. -/
def useCaseImpl.GetAmountOfDonations (deps : Deps) (env : Env) (coll : Collection)
    (ctx : Option Context) (user : String) : Outcome (Except GoError Int) :=
  match ctx with
  | none => ⟨.error (ErrInternal "ctx is empty"), coll, []⟩
  | some _ =>
    if user = "" then ⟨.error (ErrInvalidParams "user is emtpy"), coll, []⟩
    else
      match storageImpl.GetDonatesSum deps env coll user with
      | .error (.panic msg) => ⟨.error (.panic msg), coll, [.storageGetDonatesSum user]⟩
      | .error err =>
        ⟨.error (deps.HandleError err ("can't get sum of donates: " ++ err.Error)), coll,
          [.storageGetDonatesSum user]⟩
      | .ok sumDonates => ⟨.ok sumDonates, coll, [.storageGetDonatesSum user]⟩

/-- Method `useCaseImpl.GetDonatesByIDs`; a nil slice is `none`. -/
def useCaseImpl.GetDonatesByIDs (deps : Deps) (env : Env) (coll : Collection)
    (ctx : Option Context) (ids : Option (List String)) : Outcome (Except GoError (List Short)) :=
  match ctx, ids with
  | none, _ => ⟨.error (ErrInternal "ctx is empty"), coll, []⟩
  | some _, none => ⟨.error (ErrInvalidParams "ids is empty"), coll, []⟩
  | some _, some ids =>
    if ids.length = 0 then ⟨.ok [], coll, []⟩
    else
      match storageImpl.GetByIDs deps env coll ids with
      | .error err =>
        ⟨.error (deps.HandleError err ("can't get donates by ids: " ++ err.Error)), coll,
          [.storageGetByIDs ids]⟩
      | .ok allDonates =>
        ⟨.ok (allDonates.foldl (fun result donate => result ++ [donate.Short]) []), coll,
          [.storageGetByIDs ids]⟩

/-- One iteration of the loop of `useCaseImpl.handler`: the handling of one
event `evt` received from the subscription channel. The result is the list of
lines the iteration prints to the logger. -/
def useCaseImpl.handleEvent (deps : Deps) (env : Env) (coll : Collection) (evt : String) :
    Outcome (List String) :=
  let ctx := some Context.TODO
  match deps.UnpackPaymentEvent evt with
  | .error err => ⟨["can't unpack payment update: " ++ err.Error], coll, []⟩
  | .ok paymentUpdate =>
    match useCaseImpl.UpdateDonate deps env coll ctx paymentUpdate.OrderID
        (some [("status", .int paymentUpdate.Status)]) with
    | ⟨.error err, coll1, calls⟩ => ⟨["can't update donate: " ++ err.Error], coll1, calls⟩
    | ⟨.ok donate, coll1, calls⟩ =>
      let payload : M := [("id", .str donate.ID)]
      let notify := fun (logs : List String) (calls : List Call) (payload : M) =>
        let calls := calls ++ [.notificationsNotify .PaymentUpdate payload donate.From]
        match env.notifyErr with
        | some err =>
          (⟨logs ++ ["can't send notification to user: " ++ err.Error], coll1, calls⟩ :
            Outcome (List String))
        | none => ⟨logs, coll1, calls⟩
      if paymentUpdate.Status = deps.status.Processing then
        -- send url with payment form
        let logs := ["send url to user: " ++ donate.From]
        let payload := setKey payload "status" (.str "processing")
        let payload := setKey payload "url" (.str paymentUpdate.Url)
        notify logs calls payload
      else if paymentUpdate.Status = deps.status.Confirmed then
        -- send donate to events service
        let calls := calls ++ [.eventsDonateUser donate.From donate.To donate.Short]
        let logs :=
          match env.donateUserErr with
          | some err => ["can't save confirmed donate event: " ++ err.Error]
          | none => []
        let payload := setKey payload "status" (.str "confirmed")
        notify logs calls payload
      else if paymentUpdate.Status = deps.status.Failed then
        -- send failed status to user
        let payload := setKey payload "status" (.str "failed")
        notify [] calls payload
      else
        ⟨["Unhandled payment status: " ++ toString paymentUpdate.Status], coll1, calls⟩

/-- Method `useCaseImpl.handler`: subscribe once, then handle the events of
the channel one after the other; `sub` is the answer of `mq.Sub` (an error is
fatal and nothing is handled), each event comes with the environment it is
handled in. The result is the list of lines printed to the logger. -/
def useCaseImpl.handler (deps : Deps) (sub : Except GoError (List (Env × String)))
    (coll : Collection) : Outcome (List String) :=
  match sub with
  | .error err =>
    ⟨["can't subscribe on payment events mq: " ++ err.Error], coll, [.mqSub .PAYMENT_FROM]⟩
  | .ok events =>
    events.foldl
      (fun acc ee =>
        let r := useCaseImpl.handleEvent deps ee.1 acc.coll ee.2
        ⟨acc.result ++ r.result, r.coll, acc.calls ++ r.calls⟩)
      ⟨[], coll, [.mqSub .PAYMENT_FROM]⟩

/-- The collections the service can bring about: starting from the empty
collection, by calls of `MakeDonate` and iterations of the reconciliation
loop. -/
inductive Reachable (deps : Deps) : Collection → Prop
  | init : Reachable deps []
  | makeDonate (env : Env) (coll : Collection) (ctx : Option Context) (donate : Option Donate) :
      Reachable deps coll → Reachable deps (useCaseImpl.MakeDonate deps env coll ctx donate).coll
  | handle (env : Env) (coll : Collection) (evt : String) :
      Reachable deps coll → Reachable deps (useCaseImpl.handleEvent deps env coll evt).coll

end usecase

/-! ## The transport layer (`delivery/delivery.go`) -/

namespace delivery

open mongo usecase

/-- The request of `MakeDonate`, as decoded from the client's message. -/
structure reqMakeDonate where
  User : String
  Post : String
  Amount : Nat
  deriving DecidableEq, Repr

/-- Function `parseMakeDonate`; `unmarshal` is what `json.Unmarshal` makes of
the message. -/
def parseMakeDonate (unmarshal : String → Except GoError reqMakeDonate) (data : String) :
    Except GoError reqMakeDonate :=
  unmarshal data

/-- Method `websocket.MakeDonate`. The session context is the one the
transport layer supplies; `sessioncontext.GetUserID(ctx)` is the user id it
carries, the clock and the id generator are read from the environment. -/
def websocket.MakeDonate (deps : Deps) (unmarshal : String → Except GoError reqMakeDonate)
    (env : Env) (coll : Collection) (ctx : Context) (rawMessage : String) :
    Outcome (Except GoError M) :=
  match parseMakeDonate unmarshal rawMessage with
  | .error _ => ⟨.error (svcerror.ErrMalformed "can't parse data of client request"), coll, []⟩
  | .ok req =>
    let newDonate := NewDonate env.now env.xid ctx.userID req.User req.Post req.Amount
    match useCaseImpl.MakeDonate deps env coll (some ctx) (some newDonate) with
    | ⟨some err, coll1, calls⟩ => ⟨.error err, coll1, calls⟩
    | ⟨none, coll1, calls⟩ => ⟨.ok [("id", .str newDonate.ID)], coll1, calls⟩

end delivery

/-! ## Specification-side notions -/

/-- The confirmed donations received by `user`. -/
def confirmedTo (coll : mongo.Collection) (user : String) : List Donate :=
  coll.filter (fun d => decide (d.To = user) && decide (d.Status = donates.Confirmed))

/-- The confirmed donations attributed to `post`. -/
def confirmedOnPost (coll : mongo.Collection) (post : String) : List Donate :=
  coll.filter (fun d => decide (d.Post = post) && decide (d.Status = donates.Confirmed))

/-- The confirmed donations paid by `user`. -/
def confirmedFrom (coll : mongo.Collection) (user : String) : List Donate :=
  coll.filter (fun d => decide (d.From = user) && decide (d.Status = donates.Confirmed))

/-- The sum of the amounts of the confirmed donations received by `user`. -/
def confirmedTotal (coll : mongo.Collection) (user : String) : Int :=
  ((confirmedTo coll user).map (fun d => (d.Amount : Int))).sum

/-- The results of the five aggregation queries on a collection. -/
def aggregationResults (deps : Deps) (env : Env) (coll : mongo.Collection)
    (ctx : Option Context) (user post : String) :
    Except GoError Int × Except GoError Int × Except GoError (List String) ×
      Except GoError (List String) × Except GoError (List String) :=
  ((usecase.useCaseImpl.GetDonatesNumber deps env coll ctx user).result,
   (usecase.useCaseImpl.GetAmountOfDonations deps env coll ctx user).result,
   (usecase.useCaseImpl.GetUserDonators deps env coll ctx user).result,
   (usecase.useCaseImpl.GetPostDonators deps env coll ctx post).result,
   (usecase.useCaseImpl.GetUsersReceivedDonations deps env coll ctx user).result)

/-! ## Concrete data for the worked scenarios -/

namespace sample

/-- A concrete instance of the absent repository code: errors are passed on
with their class, a payment request is packed as its order id, and four
settlement events are decodable. -/
def deps : Deps :=
  { HandleError := fun err _ => err
    ErrMongoHandle := fun err msg =>
      match err with
      | .noDocuments => .db .NotFound msg
      | _ => .db .Internal msg
    PackPaymentEvent := fun p => .ok p.OrderID
    UnpackPaymentEvent := fun evt =>
      if evt = "processing" then .ok { OrderID := "id1", Status := 1, Url := "https://pay" }
      else if evt = "confirmed" then .ok { OrderID := "id1", Status := 2, Url := "" }
      else if evt = "failed" then .ok { OrderID := "id1", Status := 3, Url := "" }
      else if evt = "other" then .ok { OrderID := "id1", Status := 7, Url := "" }
      else .error (.driver "unexpected end of JSON input")
    status := payment.specStatusCodes }

/-- The context of a request of user `u1`. -/
def ctx : Context := { userID := "u1" }

/-- Scenario A: a donation of 10000 from `u1` to `u2`, created at time 100. -/
def donate : Donate := NewDonate 100 "id1" "u1" "u2" "" 10000

/-- Scenario C: a donation of 4999. -/
def smallDonate : Donate := NewDonate 100 "id2" "u1" "u2" "" 4999

/-- An environment whose clock reads 200 and in which every call succeeds. -/
def env : Env := { Env.ok with now := 200 }

/-- An environment in which publishing to the queue fails. -/
def envPubFails : Env := { Env.ok with pubErr := some (.driver "redis: connection refused") }

/-- The collection after `donate` was created. -/
def collNew : mongo.Collection :=
  (usecase.useCaseImpl.MakeDonate deps Env.ok [] (some ctx) (some donate)).coll

/-- The collection after the settlement event `confirmed` was handled. -/
def collConfirmed : mongo.Collection :=
  (usecase.useCaseImpl.handleEvent deps env collNew "confirmed").coll

/-- The instance `deps`, with three more decodable settlement events: the
confirmations of the donations `id5`, `id6` and `id7`. -/
def depsLarge : Deps :=
  { deps with
    UnpackPaymentEvent := fun evt =>
      if evt = "confirmed-id5" then .ok { OrderID := "id5", Status := 2, Url := "" }
      else if evt = "confirmed-id6" then .ok { OrderID := "id6", Status := 2, Url := "" }
      else if evt = "confirmed-id7" then .ok { OrderID := "id7", Status := 2, Url := "" }
      else deps.UnpackPaymentEvent evt }

/-- Two confirmed donations of 2^62 each, received by `u2`. -/
def collHuge : mongo.Collection :=
  [{ donate with ID := "id5", Amount := 4611686018427387904, Status := donates.Confirmed },
   { donate with ID := "id6", Amount := 4611686018427387904, Status := donates.Confirmed }]

/-- A confirmed donation of 2^63 - 1 received by `u2`, followed by the new
sample donation. -/
def collNearLimit : mongo.Collection :=
  [{ donate with ID := "id7", Amount := 9223372036854775807, Status := donates.Confirmed },
   donate]

/-- A donation that is handed to the service with status `Confirmed`. -/
def confirmedDonate : Donate := { donate with ID := "id4", Status := donates.Confirmed }

/-- A decoder of client messages that knows one message. -/
def unmarshal (data : String) : Except GoError delivery.reqMakeDonate :=
  if data = "donate-10000-to-u2" then .ok { User := "u2", Post := "", Amount := 10000 }
  else .error (.driver "invalid character")

end sample

/-! ## Auxiliary facts -/

section Auxiliary

open usecase mongo storage

theorem Value.str_beq (a b : String) : (Value.str a == Value.str b) = decide (a = b) := by
  by_cases h : a = b <;> simp [h]

theorem Value.int_beq (a b : Int) : (Value.int a == Value.int b) = decide (a = b) := by
  by_cases h : a = b <;> simp [h]

theorem matchDoc_to_status (user : String) (d : Donate) :
    matchDoc [("to", .str user), ("status", .int 2)] d
      = (decide (d.To = user) && decide (d.Status = donates.Confirmed)) := by
  simp [matchDoc, Donate.field, donates.Confirmed, Value.str_beq, Value.int_beq]

theorem matchDoc_post_status (post : String) (d : Donate) :
    matchDoc [("post", .str post), ("status", .int 2)] d
      = (decide (d.Post = post) && decide (d.Status = donates.Confirmed)) := by
  simp [matchDoc, Donate.field, donates.Confirmed, Value.str_beq, Value.int_beq]

theorem matchDoc_from_status (user : String) (d : Donate) :
    matchDoc [("from", .str user), ("status", .int 2)] d
      = (decide (d.From = user) && decide (d.Status = donates.Confirmed)) := by
  simp [matchDoc, Donate.field, donates.Confirmed, Value.str_beq, Value.int_beq]

theorem matchDoc_id (donateID : String) (d : Donate) :
    matchDoc [("id", .str donateID)] d = decide (d.ID = donateID) := by
  simp [matchDoc, Donate.field, Value.str_beq]

theorem filter_to_status (coll : Collection) (user : String) :
    coll.filter (matchDoc [("to", .str user), ("status", .int 2)]) = confirmedTo coll user := by
  unfold confirmedTo
  congr 1
  funext d
  exact matchDoc_to_status user d

theorem filter_post_status (coll : Collection) (post : String) :
    coll.filter (matchDoc [("post", .str post), ("status", .int 2)])
      = confirmedOnPost coll post := by
  unfold confirmedOnPost
  congr 1
  funext d
  exact matchDoc_post_status post d

theorem filter_from_status (coll : Collection) (user : String) :
    coll.filter (matchDoc [("from", .str user), ("status", .int 2)])
      = confirmedFrom coll user := by
  unfold confirmedFrom
  congr 1
  funext d
  exact matchDoc_from_status user d

/-- The store counts the confirmed donations received by the user. -/
theorem GetNumber_eq (deps : Deps) (env : Env) (coll : Collection) (user : String)
    (h : env.mongoErr = none) :
    storageImpl.GetNumber deps env coll user = .ok ((confirmedTo coll user).length : Int) := by
  simp [storageImpl.GetNumber, CountDocuments, h, filter_to_status]

theorem confirmedTotal_nonneg (coll : Collection) (user : String) :
    0 ≤ confirmedTotal coll user := by
  unfold confirmedTotal
  apply List.sum_nonneg
  intro x hx
  simp only [List.mem_map] at hx
  obtain ⟨d, _, rfl⟩ := hx
  exact Int.ofNat_nonneg _

/-- The store sums the amounts of the confirmed donations received by the
user; the sum is returned when it is an `int64`, and the type assertion panics
when it is not. -/
theorem GetDonatesSum_eq (deps : Deps) (env : Env) (coll : Collection) (user : String)
    (h : env.mongoErr = none) (hc : env.cursorErr = none) :
    storageImpl.GetDonatesSum deps env coll user
      = if confirmedTotal coll user ≤ maxInt64 then .ok (confirmedTotal coll user)
        else .error (.panic "interface conversion: interface is float64, not int64") := by
  have hnum : ∀ d : Donate, numeric (d.field "amount") = (d.Amount : Int) := by
    intro d
    simp [numeric, Donate.field]
  have hnn := confirmedTotal_nonneg coll user
  have hmin : minInt64 ≤ confirmedTotal coll user :=
    le_trans (by decide) hnn
  simp only [storageImpl.GetDonatesSum, AggregateSum, h, hc, filter_to_status, hnum, CursorAll]
  unfold confirmedTotal at *
  cases hl : confirmedTo coll user with
  | nil => simp [maxInt64]
  | cons a l =>
    rw [hl] at hmin
    by_cases hb : ((a :: l).map (fun d => (d.Amount : Int))).sum ≤ maxInt64
    · simp only [List.isEmpty_cons, Bool.false_eq_true, if_false, hmin, hb, and_self, if_true,
        assertInt64]
    · simp only [List.isEmpty_cons, Bool.false_eq_true, if_false, hb, and_false, assertInt64]

/-- The loop of type assertions over a list of string values collects the strings. -/
theorem foldlM_assertString (ss acc : List String) :
    (ss.map Value.str).foldlM
        (fun result d => (assertString d).map (fun s => result ++ [s])) acc
      = (.ok (acc ++ ss) : Except GoError (List String)) := by
  induction ss generalizing acc with
  | nil => simp [pure, Except.pure]
  | cons s rest ih =>
    have hs : assertString (.str s) = .ok s := rfl
    simp only [List.map_cons, List.foldlM_cons, hs]
    simp only [Except.map, bind, Except.bind]
    exact (ih (acc ++ [s])).trans (by simp)

end Auxiliary

section Auxiliary

open usecase mongo storage

theorem Value.str_injective : Function.Injective Value.str := by
  intro a b h
  cases h
  rfl

/-- The distinct string values of a field, as the store returns them. -/
theorem distinct_strings (deps : Deps) (env : Env) (coll : Collection) (uniq : String)
    (filter : M) (g : Donate → String) (h : env.mongoErr = none)
    (hg : ∀ d : Donate, d.field uniq = some (.str (g d))) :
    storageImpl.GetDonators deps env coll uniq filter
      = .ok (((coll.filter (matchDoc (setKey filter "status" (.int 2)))).map g).dedup) := by
  have hfm : (fun d : Donate => d.field uniq) = some ∘ (Value.str ∘ g) := by
    funext d
    exact hg d
  simp only [storageImpl.GetDonators, Distinct, h, hfm, List.filterMap_eq_map]
  rw [← List.map_map, List.dedup_map_of_injective Value.str_injective]
  have := foldlM_assertString
    ((coll.filter (matchDoc (setKey filter "status" (.int 2)))).map g).dedup []
  simpa using this

/-- The payers of the confirmed donations received by the user. -/
theorem GetDonators_from_to (deps : Deps) (env : Env) (coll : Collection) (user : String)
    (h : env.mongoErr = none) :
    storageImpl.GetDonators deps env coll "from" [("to", .str user)]
      = .ok (((confirmedTo coll user).map (fun d => d.From)).dedup) := by
  rw [distinct_strings deps env coll "from" _ (fun d => d.From) h (fun d => by simp [Donate.field])]
  have hk : setKey [("to", .str user)] "status" (.int 2)
      = [("to", .str user), ("status", .int 2)] := rfl
  rw [hk, filter_to_status]

/-- The payers of the confirmed donations attributed to the post. -/
theorem GetDonators_from_post (deps : Deps) (env : Env) (coll : Collection) (post : String)
    (h : env.mongoErr = none) :
    storageImpl.GetDonators deps env coll "from" [("post", .str post)]
      = .ok (((confirmedOnPost coll post).map (fun d => d.From)).dedup) := by
  rw [distinct_strings deps env coll "from" _ (fun d => d.From) h (fun d => by simp [Donate.field])]
  have hk : setKey [("post", .str post)] "status" (.int 2)
      = [("post", .str post), ("status", .int 2)] := rfl
  rw [hk, filter_post_status]

/-- The recipients of the confirmed donations paid by the user. -/
theorem GetDonators_to_from (deps : Deps) (env : Env) (coll : Collection) (user : String)
    (h : env.mongoErr = none) :
    storageImpl.GetDonators deps env coll "to" [("from", .str user)]
      = .ok (((confirmedFrom coll user).map (fun d => d.To)).dedup) := by
  rw [distinct_strings deps env coll "to" _ (fun d => d.To) h (fun d => by simp [Donate.field])]
  have hk : setKey [("from", .str user)] "status" (.int 2)
      = [("from", .str user), ("status", .int 2)] := rfl
  rw [hk, filter_from_status]

/-- The service returns the confirmed total when it is an `int64`, and the
store's panic passes through when it is not. -/
theorem GetAmountOfDonations_result (deps : Deps) (env : Env) (coll : Collection)
    (ctx : Context) (user : String)
    (hm : env.mongoErr = none) (hc : env.cursorErr = none) (hu : user ≠ "") :
    (useCaseImpl.GetAmountOfDonations deps env coll (some ctx) user).result
      = if confirmedTotal coll user ≤ maxInt64 then .ok (confirmedTotal coll user)
        else .error (.panic "interface conversion: interface is float64, not int64") := by
  simp only [useCaseImpl.GetAmountOfDonations, hu, if_false,
    GetDonatesSum_eq deps env coll user hm hc]
  by_cases hb : confirmedTotal coll user ≤ maxInt64
  · simp only [hb, if_true]
  · simp only [hb, if_false]

/-- A filter that asks for status 2 only sees confirmed documents. -/
theorem filter_confirmed_first (coll : Collection) (p : Donate → Bool) :
    coll.filter (fun d => p d && decide (d.Status = donates.Confirmed))
      = (coll.filter (fun d => decide (d.Status = donates.Confirmed))).filter p := by
  rw [List.filter_filter]

/-- The store's answers depend on the confirmed documents only. -/
theorem storage_queries_congr (deps : Deps) (env : Env) (coll coll2 : Collection)
    (h : coll.filter (fun d => decide (d.Status = donates.Confirmed))
      = coll2.filter (fun d => decide (d.Status = donates.Confirmed))) :
    (∀ user, storageImpl.GetNumber deps env coll user = storageImpl.GetNumber deps env coll2 user) ∧
    (∀ user, storageImpl.GetDonatesSum deps env coll user
      = storageImpl.GetDonatesSum deps env coll2 user) ∧
    (∀ user, storageImpl.GetDonators deps env coll "from" [("to", .str user)]
      = storageImpl.GetDonators deps env coll2 "from" [("to", .str user)]) ∧
    (∀ post, storageImpl.GetDonators deps env coll "from" [("post", .str post)]
      = storageImpl.GetDonators deps env coll2 "from" [("post", .str post)]) ∧
    (∀ user, storageImpl.GetDonators deps env coll "to" [("from", .str user)]
      = storageImpl.GetDonators deps env coll2 "to" [("from", .str user)]) := by
  have hto : ∀ user, confirmedTo coll user = confirmedTo coll2 user := by
    intro user
    unfold confirmedTo
    rw [filter_confirmed_first, filter_confirmed_first, h]
  have hpost : ∀ post, confirmedOnPost coll post = confirmedOnPost coll2 post := by
    intro post
    unfold confirmedOnPost
    rw [filter_confirmed_first, filter_confirmed_first, h]
  have hfrom : ∀ user, confirmedFrom coll user = confirmedFrom coll2 user := by
    intro user
    unfold confirmedFrom
    rw [filter_confirmed_first, filter_confirmed_first, h]
  have hk1 : ∀ user, setKey [("to", .str user)] "status" (.int 2)
      = [("to", .str user), ("status", .int 2)] := fun _ => rfl
  have hk2 : ∀ post, setKey [("post", .str post)] "status" (.int 2)
      = [("post", .str post), ("status", .int 2)] := fun _ => rfl
  have hk3 : ∀ user, setKey [("from", .str user)] "status" (.int 2)
      = [("from", .str user), ("status", .int 2)] := fun _ => rfl
  refine ⟨?_, ?_, ?_, ?_, ?_⟩
  · intro user
    simp only [storageImpl.GetNumber, CountDocuments, filter_to_status, hto]
  · intro user
    simp only [storageImpl.GetDonatesSum, AggregateSum, filter_to_status, hto]
  · intro user
    simp only [storageImpl.GetDonators, Distinct, hk1, filter_to_status, hto]
  · intro post
    simp only [storageImpl.GetDonators, Distinct, hk2, filter_post_status, hpost]
  · intro user
    simp only [storageImpl.GetDonators, Distinct, hk3, filter_from_status, hfrom]

/-- The five aggregation queries depend on the confirmed documents only. -/
theorem aggregationResults_congr (deps : Deps) (env : Env) (coll coll2 : Collection)
    (ctx : Option Context) (user post : String)
    (h : coll.filter (fun d => decide (d.Status = donates.Confirmed))
      = coll2.filter (fun d => decide (d.Status = donates.Confirmed))) :
    aggregationResults deps env coll ctx user post
      = aggregationResults deps env coll2 ctx user post := by
  obtain ⟨h1, h2, h3, h4, h5⟩ := storage_queries_congr deps env coll coll2 h
  have e1 : (useCaseImpl.GetDonatesNumber deps env coll ctx user).result
      = (useCaseImpl.GetDonatesNumber deps env coll2 ctx user).result := by
    cases ctx with
    | none => rfl
    | some c =>
      simp only [useCaseImpl.GetDonatesNumber, h1]
      by_cases hu : user = ""
      · simp only [hu, if_true]
      · simp only [hu, if_false]
        cases storageImpl.GetNumber deps env coll2 user <;> rfl
  have e2 : (useCaseImpl.GetAmountOfDonations deps env coll ctx user).result
      = (useCaseImpl.GetAmountOfDonations deps env coll2 ctx user).result := by
    cases ctx with
    | none => rfl
    | some c =>
      simp only [useCaseImpl.GetAmountOfDonations, h2]
      by_cases hu : user = ""
      · simp only [hu, if_true]
      · simp only [hu, if_false]
        cases storageImpl.GetDonatesSum deps env coll2 user with
        | error e => cases e <;> rfl
        | ok v => rfl
  have e3 : (useCaseImpl.GetUserDonators deps env coll ctx user).result
      = (useCaseImpl.GetUserDonators deps env coll2 ctx user).result := by
    cases ctx with
    | none => rfl
    | some c =>
      simp only [useCaseImpl.GetUserDonators, h3]
      by_cases hu : user = ""
      · simp only [hu, if_true]
      · simp only [hu, if_false]
        cases storageImpl.GetDonators deps env coll2 "from" [("to", .str user)] with
        | error e => cases e <;> rfl
        | ok v => rfl
  have e4 : (useCaseImpl.GetPostDonators deps env coll ctx post).result
      = (useCaseImpl.GetPostDonators deps env coll2 ctx post).result := by
    cases ctx with
    | none => rfl
    | some c =>
      simp only [useCaseImpl.GetPostDonators, h4]
      by_cases hp : post = ""
      · simp only [hp, if_true]
      · simp only [hp, if_false]
        cases storageImpl.GetDonators deps env coll2 "from" [("post", .str post)] with
        | error e => cases e <;> rfl
        | ok v => rfl
  have e5 : (useCaseImpl.GetUsersReceivedDonations deps env coll ctx user).result
      = (useCaseImpl.GetUsersReceivedDonations deps env coll2 ctx user).result := by
    cases ctx with
    | none => rfl
    | some c =>
      simp only [useCaseImpl.GetUsersReceivedDonations, h5]
      by_cases hu : user = ""
      · simp only [hu, if_true]
      · simp only [hu, if_false]
        cases storageImpl.GetDonators deps env coll2 "to" [("from", .str user)] with
        | error e => cases e <;> rfl
        | ok v => rfl
  unfold aggregationResults
  rw [e1, e2, e3, e4, e5]

end Auxiliary

/-! ## Creation and validation -/

section Claims

open usecase mongo storage

/-- C1: for a non-nil context and a non-nil donation, `MakeDonate` returns an
`InvalidParams` error whenever `donate.To` is empty or `donate.Amount < 5000`,
and then the collection is unchanged and no collaborator is called (no
`storage.Create`, no `mq.Pub`); a donation with non-empty `To` and
`Amount >= 5000` passes validation: `storage.Create` is called with it, and
when the store, the packing and the queue succeed the result is `nil`. -/
theorem C1_MakeDonate_validation (deps : Deps) (env : Env) (coll : Collection)
    (ctx : Context) (donate : Donate) :
    ((donate.To = "" ∨ donate.Amount < 5000) →
      (∃ msg, (useCaseImpl.MakeDonate deps env coll (some ctx) (some donate)).result
          = some (.svc .InvalidParams msg)) ∧
      (useCaseImpl.MakeDonate deps env coll (some ctx) (some donate)).coll = coll ∧
      (useCaseImpl.MakeDonate deps env coll (some ctx) (some donate)).calls = []) ∧
    (donate.To ≠ "" → 5000 ≤ donate.Amount →
      (useCaseImpl.MakeDonate deps env coll (some ctx) (some donate)).calls.head?
          = some (.storageCreate donate) ∧
      (∀ paymentEvent, env.mongoErr = none → env.insertedID ≠ none →
        deps.PackPaymentEvent (payment.NewPayment donate.ID donate.From donate.Amount)
          = .ok paymentEvent →
        env.pubErr = none →
        (useCaseImpl.MakeDonate deps env coll (some ctx) (some donate)).result = none)) := by
  constructor
  · intro h
    by_cases hto : donate.To = ""
    · simp [useCaseImpl.MakeDonate, hto, svcerror.ErrInvalidParams]
    · have hlt : donate.Amount < minDonateValue := by
        rcases h with h | h
        · exact absurd h hto
        · simpa [minDonateValue] using h
      simp [useCaseImpl.MakeDonate, hto, hlt, svcerror.ErrInvalidParams]
  · intro hto hge
    have hnlt : ¬ donate.Amount < minDonateValue := by
      simp only [minDonateValue]
      omega
    constructor
    · simp only [useCaseImpl.MakeDonate, hto, hnlt, if_false]
      split
      · rfl
      · split
        · rfl
        · split <;> rfl
    · intro paymentEvent hm hid hpack hpub
      cases hi : env.insertedID with
      | none => exact absurd hi hid
      | some oid =>
        simp [useCaseImpl.MakeDonate, hto, hnlt, storageImpl.Create, InsertOne, hm, hi, hpack,
          hpub]

/-- Scenario C: a donation of 4999 is rejected, nothing is written, nothing is
published; and a donation of exactly 5000 reaches the store. -/
theorem C1_MakeDonate_validation_witness :
    (useCaseImpl.MakeDonate sample.deps Env.ok [] (some sample.ctx)
        (some sample.smallDonate)).calls = [] ∧
    (useCaseImpl.MakeDonate sample.deps Env.ok [] (some sample.ctx)
        (some (NewDonate 100 "id3" "u1" "u2" "" 5000))).calls.head?
      = some (.storageCreate (NewDonate 100 "id3" "u1" "u2" "" 5000)) :=
  ⟨((C1_MakeDonate_validation sample.deps Env.ok [] sample.ctx sample.smallDonate).1
      (Or.inr (by decide))).2.2,
   ((C1_MakeDonate_validation sample.deps Env.ok [] sample.ctx
      (NewDonate 100 "id3" "u1" "u2" "" 5000)).2 (by decide) (by decide)).1⟩

/-! ## Aggregation queries -/

/-- C2, as stated, fails for the sum: two confirmed donations of 2^62 each
received by `u2` (a collection the service brings about with two `MakeDonate`
calls and two settlement events) add up to 2^63, which is no `int64`; the type
assertion of `GetDonatesSum` panics and `GetAmountOfDonations` does not return
the sum. -/
theorem C2_amount_sum_counterexample :
    Reachable sample.depsLarge sample.collHuge ∧
    confirmedTo sample.collHuge "u2" = sample.collHuge ∧
    ((confirmedTo sample.collHuge "u2").map (fun d => (d.Amount : Int))).sum
      = 9223372036854775808 ∧
    (useCaseImpl.GetAmountOfDonations sample.depsLarge Env.ok sample.collHuge
        (some sample.ctx) "u2").result
      = .error (.panic "interface conversion: interface is float64, not int64") ∧
    (useCaseImpl.GetAmountOfDonations sample.depsLarge Env.ok sample.collHuge
        (some sample.ctx) "u2").result
      ≠ .ok ((confirmedTo sample.collHuge "u2").map (fun d => (d.Amount : Int))).sum := by
  have hreach : Reachable sample.depsLarge sample.collHuge :=
    Reachable.handle Env.ok _ "confirmed-id6"
      (Reachable.handle Env.ok _ "confirmed-id5"
        (Reachable.makeDonate Env.ok _ (some sample.ctx)
          (some { sample.donate with ID := "id6", Amount := 4611686018427387904 })
          (Reachable.makeDonate Env.ok [] (some sample.ctx)
            (some { sample.donate with ID := "id5", Amount := 4611686018427387904 })
            Reachable.init)))
  have hres : (useCaseImpl.GetAmountOfDonations sample.depsLarge Env.ok sample.collHuge
      (some sample.ctx) "u2").result
      = .error (.panic "interface conversion: interface is float64, not int64") := by rfl
  refine ⟨hreach, by decide, by decide, hres, ?_⟩
  rw [hres]
  intro h
  cases h

/-- C2, amended: with the store a collection of donation records, and for a
non-nil context, non-empty arguments and a responsive store,
`GetDonatesNumber(user)` is the number of records with `to = user` and status
`Confirmed`, `GetAmountOfDonations(user)` is the sum of their amounts whenever
that sum is in the `int64` range of the result (in particular 0 when there are
none), and `GetUserDonators` / `GetPostDonators` / `GetUsersReceivedDonations`
return, without repetition, exactly the `from` (resp. `from`, `to`) values of
the confirmed records with `to = user` (resp. `post = post`, `from = user`).
Consequently, for every collection, environment and arguments, adding,
removing or replacing a record whose status is not `Confirmed` changes the
result of none of the five queries. -/
theorem C2_aggregations_see_confirmed_only (deps : Deps) (env : Env) (coll : Collection)
    (ctx : Context) (user post : String)
    (hm : env.mongoErr = none) (hc : env.cursorErr = none)
    (hu : user ≠ "") (hp : post ≠ "") :
    (useCaseImpl.GetDonatesNumber deps env coll (some ctx) user).result
      = .ok ((confirmedTo coll user).length : Int) ∧
    (((confirmedTo coll user).map (fun d => (d.Amount : Int))).sum ≤ 2 ^ 63 - 1 →
      (useCaseImpl.GetAmountOfDonations deps env coll (some ctx) user).result
        = .ok ((confirmedTo coll user).map (fun d => (d.Amount : Int))).sum) ∧
    (confirmedTo coll user = [] →
      (useCaseImpl.GetAmountOfDonations deps env coll (some ctx) user).result = .ok 0) ∧
    (∃ users, (useCaseImpl.GetUserDonators deps env coll (some ctx) user).result = .ok users ∧
      users.Nodup ∧
      ∀ x, x ∈ users ↔ ∃ d ∈ coll, d.To = user ∧ d.Status = donates.Confirmed ∧ d.From = x) ∧
    (∃ users, (useCaseImpl.GetPostDonators deps env coll (some ctx) post).result = .ok users ∧
      users.Nodup ∧
      ∀ x, x ∈ users ↔ ∃ d ∈ coll, d.Post = post ∧ d.Status = donates.Confirmed ∧ d.From = x) ∧
    (∃ users,
      (useCaseImpl.GetUsersReceivedDonations deps env coll (some ctx) user).result = .ok users ∧
      users.Nodup ∧
      ∀ x, x ∈ users ↔ ∃ d ∈ coll, d.From = user ∧ d.Status = donates.Confirmed ∧ d.To = x) ∧
    (∀ (env2 : Env) (ctx2 : Option Context) (user2 post2 : String)
        (before after : Collection) (r r2 : Donate),
      r.Status ≠ donates.Confirmed → r2.Status ≠ donates.Confirmed →
      aggregationResults deps env2 (before ++ r :: after) ctx2 user2 post2
        = aggregationResults deps env2 (before ++ after) ctx2 user2 post2 ∧
      aggregationResults deps env2 (before ++ r2 :: after) ctx2 user2 post2
        = aggregationResults deps env2 (before ++ r :: after) ctx2 user2 post2) := by
  have hsum : ((confirmedTo coll user).map (fun d => (d.Amount : Int))).sum ≤ 2 ^ 63 - 1 →
      (useCaseImpl.GetAmountOfDonations deps env coll (some ctx) user).result
        = .ok ((confirmedTo coll user).map (fun d => (d.Amount : Int))).sum := by
    intro hfit
    have hfit2 : confirmedTotal coll user ≤ maxInt64 := hfit
    rw [GetAmountOfDonations_result deps env coll ctx user hm hc hu, if_pos hfit2]
    rfl
  refine ⟨?_, hsum, ?_, ?_, ?_, ?_, ?_⟩
  · simp [useCaseImpl.GetDonatesNumber, hu, GetNumber_eq deps env coll user hm]
  · intro hnil
    have h0 := hsum (by rw [hnil]; decide)
    rw [h0, hnil]
    rfl
  · refine ⟨((confirmedTo coll user).map (fun d => d.From)).dedup, ?_, List.nodup_dedup _, ?_⟩
    · simp [useCaseImpl.GetUserDonators, hu, GetDonators_from_to deps env coll user hm]
    · intro x
      simp only [List.mem_dedup, List.mem_map, confirmedTo, List.mem_filter, Bool.and_eq_true,
        decide_eq_true_eq]
      constructor
      · rintro ⟨d, ⟨hd, h1, h2⟩, h3⟩
        exact ⟨d, hd, h1, h2, h3⟩
      · rintro ⟨d, hd, h1, h2, h3⟩
        exact ⟨d, ⟨hd, h1, h2⟩, h3⟩
  · refine ⟨((confirmedOnPost coll post).map (fun d => d.From)).dedup, ?_, List.nodup_dedup _, ?_⟩
    · simp [useCaseImpl.GetPostDonators, hp, GetDonators_from_post deps env coll post hm]
    · intro x
      simp only [List.mem_dedup, List.mem_map, confirmedOnPost, List.mem_filter,
        Bool.and_eq_true, decide_eq_true_eq]
      constructor
      · rintro ⟨d, ⟨hd, h1, h2⟩, h3⟩
        exact ⟨d, hd, h1, h2, h3⟩
      · rintro ⟨d, hd, h1, h2, h3⟩
        exact ⟨d, ⟨hd, h1, h2⟩, h3⟩
  · refine ⟨((confirmedFrom coll user).map (fun d => d.To)).dedup, ?_, List.nodup_dedup _, ?_⟩
    · simp [useCaseImpl.GetUsersReceivedDonations, hu, GetDonators_to_from deps env coll user hm]
    · intro x
      simp only [List.mem_dedup, List.mem_map, confirmedFrom, List.mem_filter,
        Bool.and_eq_true, decide_eq_true_eq]
      constructor
      · rintro ⟨d, ⟨hd, h1, h2⟩, h3⟩
        exact ⟨d, hd, h1, h2, h3⟩
      · rintro ⟨d, hd, h1, h2, h3⟩
        exact ⟨d, ⟨hd, h1, h2⟩, h3⟩
  · intro env2 ctx2 user2 post2 before after r r2 hr hr2
    have key : ∀ x : Donate, x.Status ≠ donates.Confirmed →
        (before ++ x :: after).filter (fun d => decide (d.Status = donates.Confirmed))
          = (before ++ after).filter (fun d => decide (d.Status = donates.Confirmed)) := by
      intro x hx
      simp [List.filter_append, List.filter_cons, hx]
    constructor
    · exact aggregationResults_congr deps env2 _ _ ctx2 user2 post2 (key r hr)
    · exact aggregationResults_congr deps env2 _ _ ctx2 user2 post2
        ((key r2 hr2).trans (key r hr).symm)

/-- Scenario B, read side: once the sample donation is confirmed, the count
for `u2` is one and the amount is 10000; a pending donation added to the
collection does not change the results. -/
theorem C2_aggregations_see_confirmed_only_witness :
    (useCaseImpl.GetDonatesNumber sample.deps Env.ok sample.collConfirmed
        (some sample.ctx) "u2").result = .ok 1 ∧
    (useCaseImpl.GetAmountOfDonations sample.deps Env.ok sample.collConfirmed
        (some sample.ctx) "u2").result = .ok 10000 ∧
    aggregationResults sample.deps Env.ok
        ([] ++ { sample.donate with ID := "id9", Status := donates.Pending }
          :: sample.collConfirmed) (some sample.ctx) "u2" "p1"
      = aggregationResults sample.deps Env.ok ([] ++ sample.collConfirmed)
          (some sample.ctx) "u2" "p1" :=
  ⟨(C2_aggregations_see_confirmed_only sample.deps Env.ok sample.collConfirmed sample.ctx
      "u2" "p1" rfl rfl (by decide) (by decide)).1.trans (by rfl),
   ((C2_aggregations_see_confirmed_only sample.deps Env.ok sample.collConfirmed sample.ctx
      "u2" "p1" rfl rfl (by decide) (by decide)).2.1 (by decide)).trans (by rfl),
   ((C2_aggregations_see_confirmed_only sample.deps Env.ok sample.collConfirmed sample.ctx
      "u2" "p1" rfl rfl (by decide) (by decide)).2.2.2.2.2.2 Env.ok (some sample.ctx) "u2" "p1"
      [] sample.collConfirmed { sample.donate with ID := "id9", Status := donates.Pending }
      sample.donate (by decide) (by decide)).1⟩

end Claims

/-! ## Settlement: the effect of one event on the collection -/

section Settlement

open usecase mongo storage

/-- Replacing the first match by the image of the record that `find?` returns
is the same as mapping the first match. -/
theorem updateFirst_const_eq (p : Donate → Bool) (f : Donate → Donate) (coll : Collection)
    (d : Donate) (h : coll.find? p = some d) :
    updateFirst p (fun _ => f d) coll = updateFirst p f coll := by
  induction coll with
  | nil => rfl
  | cons a rest ih =>
    by_cases hp : p a = true
    · have had : a = d := by
        simpa [List.find?_cons, hp] using h
      subst had
      simp [updateFirst, hp]
    · have hrest : rest.find? p = some d := by
        simpa [List.find?_cons, hp] using h
      simp [updateFirst, hp, ih hrest]

theorem updateFirst_of_find_none (p : Donate → Bool) (f : Donate → Donate) (coll : Collection)
    (h : coll.find? p = none) : updateFirst p f coll = coll := by
  induction coll with
  | nil => rfl
  | cons a rest ih =>
    by_cases hp : p a = true
    · simp [List.find?_cons, hp] at h
    · have hrest : rest.find? p = none := by
        simpa [List.find?_cons, hp] using h
      simp [updateFirst, hp, ih hrest]

theorem updateFirst_split (p : Donate → Bool) (f : Donate → Donate) (coll : Collection)
    (d : Donate) (h : coll.find? p = some d) :
    ∃ before after, coll = before ++ d :: after ∧ (∀ a ∈ before, p a = false) ∧
      updateFirst p f coll = before ++ f d :: after := by
  induction coll with
  | nil => simp at h
  | cons a rest ih =>
    by_cases hp : p a = true
    · have had : a = d := by
        simpa [List.find?_cons, hp] using h
      subst had
      refine ⟨[], rest, by simp, by simp, ?_⟩
      simp [updateFirst, hp]
    · have hrest : rest.find? p = some d := by
        simpa [List.find?_cons, hp] using h
      obtain ⟨before, after, h1, h2, h3⟩ := ih hrest
      refine ⟨a :: before, after, by simp [h1], ?_, ?_⟩
      · intro x hx
        rcases List.mem_cons.mp hx with hx | hx
        · subst hx
          simpa using hp
        · exact h2 x hx
      · simp [updateFirst, hp, h3]

theorem updateFirst_idem (p : Donate → Bool) (f : Donate → Donate) (coll : Collection)
    (hp : ∀ d, p d = true → p (f d) = true) (hf : ∀ d, f (f d) = f d) :
    updateFirst p f (updateFirst p f coll) = updateFirst p f coll := by
  induction coll with
  | nil => rfl
  | cons a rest ih =>
    by_cases ha : p a = true
    · simp [updateFirst, ha, hp a ha, hf]
    · simp [updateFirst, ha, ih]

theorem find_updateFirst (p : Donate → Bool) (f : Donate → Donate) (coll : Collection)
    (d : Donate) (hp : ∀ d, p d = true → p (f d) = true) (h : coll.find? p = some d) :
    (updateFirst p f coll).find? p = some (f d) := by
  induction coll with
  | nil => simp at h
  | cons a rest ih =>
    by_cases ha : p a = true
    · have had : a = d := by
        simpa [List.find?_cons, ha] using h
      subst had
      simp [updateFirst, ha, List.find?_cons, hp a ha]
    · have hrest : rest.find? p = some d := by
        simpa [List.find?_cons, ha] using h
      simp [updateFirst, ha, List.find?_cons, ih hrest]

theorem applySet_status (d : Donate) (s : Int) :
    applySet d [("status", .int s)] = some { d with Status := s } := by
  simp [applySet, Donate.setField]

theorem matchDoc_id_fun (donateID : String) :
    matchDoc [("id", .str donateID)] = fun d => decide (d.ID = donateID) := by
  funext d
  exact matchDoc_id donateID d

/-- What `storageImpl.Update` answers to a status update when the driver call
goes through: `ErrNoDocuments` (handled) without a record of that id, and
otherwise the first record of that id with the new status. -/
theorem Update_status_result (deps : Deps) (env : Env) (coll : Collection)
    (donateID : String) (s : Int) (h : env.mongoErr = none) :
    (storageImpl.Update deps env coll donateID [("status", .int s)]).1
      = match coll.find? (fun d => decide (d.ID = donateID)) with
        | none => .error (deps.ErrMongoHandle .noDocuments
            ("mongo.UpdateOne err: " ++ GoError.noDocuments.Error))
        | some d => .ok { d with Status := s } := by
  simp only [storageImpl.Update, FindOneAndUpdate, h, matchDoc_id_fun, applySet_status]
  cases coll.find? (fun d => decide (d.ID = donateID)) <;> rfl

/-- The collection after `storageImpl.Update` of a status: unchanged when the
driver call fails, and otherwise the first record of that id (if any) has the
new status and nothing else is touched. -/
theorem Update_status_coll (deps : Deps) (env : Env) (coll : Collection)
    (donateID : String) (s : Int) :
    (storageImpl.Update deps env coll donateID [("status", .int s)]).2
      = if env.mongoErr = none then
          updateFirst (fun d => decide (d.ID = donateID)) (fun d => { d with Status := s }) coll
        else coll := by
  cases hm : env.mongoErr with
  | some e => simp [storageImpl.Update, FindOneAndUpdate, hm]
  | none =>
    simp only [storageImpl.Update, FindOneAndUpdate, hm, matchDoc_id_fun, applySet_status,
      if_true]
    cases hf : coll.find? (fun d => decide (d.ID = donateID)) with
    | none =>
      simp only []
      exact (updateFirst_of_find_none _ _ coll hf).symm
    | some d =>
      simp only []
      exact updateFirst_const_eq _ (fun d => { d with Status := s }) coll d hf

/-- The collection after one iteration of the loop. -/
theorem handleEvent_coll (deps : Deps) (env : Env) (coll : Collection) (evt : String) :
    (useCaseImpl.handleEvent deps env coll evt).coll
      = match deps.UnpackPaymentEvent evt with
        | .error _ => coll
        | .ok paymentUpdate =>
          (storageImpl.Update deps env coll paymentUpdate.OrderID
            [("status", .int paymentUpdate.Status)]).2 := by
  unfold useCaseImpl.handleEvent
  cases deps.UnpackPaymentEvent evt with
  | error e => rfl
  | ok pu =>
    simp only [useCaseImpl.UpdateDonate]
    rcases hU : storageImpl.Update deps env coll pu.OrderID [("status", .int pu.Status)]
      with ⟨res, coll1⟩
    cases res with
    | error e => rfl
    | ok donate =>
      simp only []
      split_ifs <;> (try rfl) <;> (cases env.notifyErr <;> rfl)

end Settlement

section Settlement

open usecase mongo storage

/-- Handling an event a second time changes nothing, unless the store was
unreachable the first time and reachable the second time. -/
theorem handleEvent_twice (deps : Deps) (env1 env2 : Env) (coll : Collection) (evt : String)
    (h : env1.mongoErr = none ∨ env2.mongoErr ≠ none) :
    (useCaseImpl.handleEvent deps env2 (useCaseImpl.handleEvent deps env1 coll evt).coll evt).coll
      = (useCaseImpl.handleEvent deps env1 coll evt).coll := by
  rw [handleEvent_coll deps env2, handleEvent_coll deps env1]
  cases deps.UnpackPaymentEvent evt with
  | error e => rfl
  | ok pu =>
    simp only [Update_status_coll]
    by_cases h2 : env2.mongoErr = none
    · have h1 : env1.mongoErr = none := by
        rcases h with h | h
        · exact h
        · exact absurd h2 h
      simp only [h1, h2, if_true]
      apply updateFirst_idem
      · intro d hd
        simpa using hd
      · intro d
        rfl
    · simp only [h2, if_false]

/-- The record an event identifies carries the event's status once the event
was applied. -/
theorem handleEvent_find (deps : Deps) (env : Env) (coll : Collection) (evt : String)
    (pu : payment.PaymentUpdate) (d : Donate)
    (hu : deps.UnpackPaymentEvent evt = .ok pu) (hm : env.mongoErr = none)
    (hd : coll.find? (fun x => decide (x.ID = pu.OrderID)) = some d) :
    (useCaseImpl.handleEvent deps env coll evt).coll
        = updateFirst (fun x => decide (x.ID = pu.OrderID))
            (fun x => { x with Status := pu.Status }) coll ∧
    (useCaseImpl.handleEvent deps env coll evt).coll.find? (fun x => decide (x.ID = pu.OrderID))
        = some { d with Status := pu.Status } := by
  have hc : (useCaseImpl.handleEvent deps env coll evt).coll
      = updateFirst (fun x => decide (x.ID = pu.OrderID))
          (fun x => { x with Status := pu.Status }) coll := by
    rw [handleEvent_coll, hu]
    simp only [Update_status_coll, hm, if_true]
  refine ⟨hc, ?_⟩
  rw [hc]
  apply find_updateFirst _ _ coll d _ hd
  intro x hx
  simpa using hx

/-- C3: idempotence of settlement. For every collection and every event,
handling the same event twice in a row leaves the collection exactly as
handling it once does: under one and the same environment, and under any two
environments as soon as the store was reachable the first time. In particular,
for a decodable event that identifies a record, that record carries the
event's status after one handling and after two. -/
theorem C3_settlement_idempotent (deps : Deps) (coll : Collection) (evt : String) :
    (∀ env : Env,
      (useCaseImpl.handleEvent deps env (useCaseImpl.handleEvent deps env coll evt).coll evt).coll
        = (useCaseImpl.handleEvent deps env coll evt).coll) ∧
    (∀ env1 env2 : Env, env1.mongoErr = none →
      (useCaseImpl.handleEvent deps env2
          (useCaseImpl.handleEvent deps env1 coll evt).coll evt).coll
        = (useCaseImpl.handleEvent deps env1 coll evt).coll) ∧
    (∀ (env1 env2 : Env) (pu : payment.PaymentUpdate) (d : Donate),
      deps.UnpackPaymentEvent evt = .ok pu → env1.mongoErr = none →
      coll.find? (fun x => decide (x.ID = pu.OrderID)) = some d →
      (useCaseImpl.handleEvent deps env1 coll evt).coll.find?
          (fun x => decide (x.ID = pu.OrderID)) = some { d with Status := pu.Status } ∧
      (useCaseImpl.handleEvent deps env2
          (useCaseImpl.handleEvent deps env1 coll evt).coll evt).coll.find?
          (fun x => decide (x.ID = pu.OrderID)) = some { d with Status := pu.Status }) := by
  refine ⟨?_, ?_, ?_⟩
  · intro env
    apply handleEvent_twice
    by_cases h : env.mongoErr = none
    · exact Or.inl h
    · exact Or.inr h
  · intro env1 env2 h1
    exact handleEvent_twice deps env1 env2 coll evt (Or.inl h1)
  · intro env1 env2 pu d hu h1 hd
    have hfind := (handleEvent_find deps env1 coll evt pu d hu h1 hd).2
    refine ⟨hfind, ?_⟩
    rw [handleEvent_twice deps env1 env2 coll evt (Or.inl h1)]
    exact hfind

/-- Scenario B twice: handling the event `confirmed` a second time leaves the
collection as it was after the first time, the donation being confirmed. -/
theorem C3_settlement_idempotent_witness :
    (useCaseImpl.handleEvent sample.deps Env.ok
        (useCaseImpl.handleEvent sample.deps sample.env sample.collNew "confirmed").coll
        "confirmed").coll
      = (useCaseImpl.handleEvent sample.deps sample.env sample.collNew "confirmed").coll ∧
    (useCaseImpl.handleEvent sample.deps sample.env sample.collNew "confirmed").coll
      = [{ sample.donate with Status := donates.Confirmed }] :=
  ⟨(C3_settlement_idempotent sample.deps sample.collNew "confirmed").2.1 sample.env Env.ok rfl,
   by decide⟩

end Settlement

section Settlement

open usecase mongo storage

/-- The record written by an applied event is among the confirmed donations of
its recipient exactly when the event's status is the number 2. -/
theorem applied_event_counted_iff (deps : Deps) (env : Env) (coll : Collection) (evt : String)
    (pu : payment.PaymentUpdate) (d : Donate)
    (hu : deps.UnpackPaymentEvent evt = .ok pu) (hm : env.mongoErr = none)
    (hd : coll.find? (fun x => decide (x.ID = pu.OrderID)) = some d) :
    ({ d with Status := pu.Status } : Donate)
        ∈ confirmedTo (useCaseImpl.handleEvent deps env coll evt).coll d.To
      ↔ pu.Status = donates.Confirmed := by
  have hmem : ({ d with Status := pu.Status } : Donate)
      ∈ (useCaseImpl.handleEvent deps env coll evt).coll :=
    List.mem_of_find?_eq_some (handleEvent_find deps env coll evt pu d hu hm hd).2
  simp [confirmedTo, List.mem_filter, hmem]

/-- C4, as stated, fails for the sum: `u2` has a confirmed donation of
2^63 - 1 and the new sample donation of 10000 (a collection the service brings
about with two `MakeDonate` calls and one settlement event); the event
`confirmed` is applied to the sample donation, `GetDonatesNumber(u2)` counts
it, but the confirmed total is no `int64` any more, the type assertion of
`GetDonatesSum` panics and `GetAmountOfDonations(u2)` returns no amount at
all. -/
theorem C4_amount_includes_counterexample :
    Reachable sample.depsLarge sample.collNearLimit ∧
    sample.depsLarge.status.Confirmed = 2 ∧
    sample.depsLarge.UnpackPaymentEvent "confirmed"
      = .ok { OrderID := "id1", Status := 2, Url := "" } ∧
    (useCaseImpl.handleEvent sample.depsLarge sample.env sample.collNearLimit "confirmed").coll
      = [{ sample.donate with
            ID := "id7", Amount := 9223372036854775807, Status := donates.Confirmed },
         { sample.donate with Status := donates.Confirmed }] ∧
    (useCaseImpl.GetDonatesNumber sample.depsLarge Env.ok
        (useCaseImpl.handleEvent sample.depsLarge sample.env sample.collNearLimit
          "confirmed").coll
        (some sample.ctx) "u2").result = .ok 2 ∧
    (useCaseImpl.GetAmountOfDonations sample.depsLarge Env.ok
        (useCaseImpl.handleEvent sample.depsLarge sample.env sample.collNearLimit
          "confirmed").coll
        (some sample.ctx) "u2").result
      = .error (.panic "interface conversion: interface is float64, not int64") := by
  have hreach : Reachable sample.depsLarge sample.collNearLimit :=
    Reachable.makeDonate Env.ok _ (some sample.ctx) (some sample.donate)
      (Reachable.handle Env.ok _ "confirmed-id7"
        (Reachable.makeDonate Env.ok [] (some sample.ctx)
          (some { sample.donate with ID := "id7", Amount := 9223372036854775807 })
          Reachable.init))
  refine ⟨hreach, rfl, rfl, by decide, by rfl, by rfl⟩

/-- C4, amended: with the payment statuses numbered as the spec has them,
after the loop applies a settlement event with status `payment.Confirmed` to
an existing donation `d` with `d.To = u`, the value written into the record's
status is `2 = donates.Confirmed`, the record is among the confirmed donations
of `u`, `GetDonatesNumber(u)` counts it, and `GetAmountOfDonations(u)` is the
confirmed total, which includes `d.Amount`, whenever that total is in the
`int64` range of the result. When `d` was not confirmed before, the count grows
by one and the confirmed total by `d.Amount`. -/
theorem C4_confirmed_event_is_counted (deps : Deps) (env envQ : Env) (coll : Collection)
    (ctx : Context) (evt : String) (pu : payment.PaymentUpdate) (d : Donate)
    (hcodes : deps.status.Confirmed = payment.specStatusCodes.Confirmed)
    (hu : deps.UnpackPaymentEvent evt = .ok pu)
    (hs : pu.Status = deps.status.Confirmed)
    (hm : env.mongoErr = none)
    (hd : coll.find? (fun x => decide (x.ID = pu.OrderID)) = some d)
    (hto : d.To ≠ "")
    (hq : envQ.mongoErr = none) (hqc : envQ.cursorErr = none) :
    pu.Status = donates.Confirmed ∧
    ({ d with Status := donates.Confirmed } : Donate)
      ∈ confirmedTo (useCaseImpl.handleEvent deps env coll evt).coll d.To ∧
    (useCaseImpl.GetDonatesNumber deps envQ (useCaseImpl.handleEvent deps env coll evt).coll
        (some ctx) d.To).result
      = .ok ((confirmedTo (useCaseImpl.handleEvent deps env coll evt).coll d.To).length : Int) ∧
    (((confirmedTo (useCaseImpl.handleEvent deps env coll evt).coll d.To).map
          (fun x => (x.Amount : Int))).sum ≤ 2 ^ 63 - 1 →
      (useCaseImpl.GetAmountOfDonations deps envQ (useCaseImpl.handleEvent deps env coll evt).coll
          (some ctx) d.To).result
        = .ok ((confirmedTo (useCaseImpl.handleEvent deps env coll evt).coll d.To).map
            (fun x => (x.Amount : Int))).sum) ∧
    (d.Status ≠ donates.Confirmed →
      (∃ n : Int,
        (useCaseImpl.GetDonatesNumber deps envQ coll (some ctx) d.To).result = .ok n ∧
        (useCaseImpl.GetDonatesNumber deps envQ (useCaseImpl.handleEvent deps env coll evt).coll
          (some ctx) d.To).result = .ok (n + 1)) ∧
      ((confirmedTo (useCaseImpl.handleEvent deps env coll evt).coll d.To).map
          (fun x => (x.Amount : Int))).sum
        = ((confirmedTo coll d.To).map (fun x => (x.Amount : Int))).sum + d.Amount ∧
      (((confirmedTo (useCaseImpl.handleEvent deps env coll evt).coll d.To).map
            (fun x => (x.Amount : Int))).sum ≤ 2 ^ 63 - 1 →
        ∃ a : Int,
          (useCaseImpl.GetAmountOfDonations deps envQ coll (some ctx) d.To).result = .ok a ∧
          (useCaseImpl.GetAmountOfDonations deps envQ
            (useCaseImpl.handleEvent deps env coll evt).coll (some ctx) d.To).result
            = .ok (a + d.Amount))) := by
  have hst : pu.Status = donates.Confirmed := by
    rw [hs, hcodes]
    rfl
  have hnum : ∀ c : Collection, (useCaseImpl.GetDonatesNumber deps envQ c (some ctx) d.To).result
      = .ok ((confirmedTo c d.To).length : Int) := by
    intro c
    simp [useCaseImpl.GetDonatesNumber, hto, GetNumber_eq deps envQ c d.To hq]
  have hsum : ∀ c : Collection,
      ((confirmedTo c d.To).map (fun x => (x.Amount : Int))).sum ≤ 2 ^ 63 - 1 →
      (useCaseImpl.GetAmountOfDonations deps envQ c (some ctx) d.To).result
        = .ok ((confirmedTo c d.To).map (fun x => (x.Amount : Int))).sum := by
    intro c hfit
    have hfit2 : confirmedTotal c d.To ≤ maxInt64 := hfit
    rw [GetAmountOfDonations_result deps envQ c ctx d.To hq hqc hto, if_pos hfit2]
    rfl
  refine ⟨hst, ?_, hnum _, hsum _, ?_⟩
  · have := (applied_event_counted_iff deps env coll evt pu d hu hm hd).2 hst
    rwa [hst] at this
  · intro hnot
    obtain ⟨before, after, h1, _, h3⟩ := updateFirst_split
      (fun x => decide (x.ID = pu.OrderID)) (fun x => { x with Status := pu.Status }) coll d hd
    have hlen : ((confirmedTo (useCaseImpl.handleEvent deps env coll evt).coll d.To).length : Int)
        = ((confirmedTo coll d.To).length : Int) + 1 := by
      rw [(handleEvent_find deps env coll evt pu d hu hm hd).1, h3]
      conv_rhs => rw [h1]
      simp [confirmedTo, List.filter_append, List.filter_cons, hst, hnot]
      omega
    have htot : ((confirmedTo (useCaseImpl.handleEvent deps env coll evt).coll d.To).map
          (fun x => (x.Amount : Int))).sum
        = ((confirmedTo coll d.To).map (fun x => (x.Amount : Int))).sum + d.Amount := by
      rw [(handleEvent_find deps env coll evt pu d hu hm hd).1, h3]
      conv_rhs => rw [h1]
      simp [confirmedTo, List.filter_append, List.filter_cons, hst, hnot]
      omega
    refine ⟨⟨_, hnum coll, ?_⟩, htot, ?_⟩
    · rw [hnum, hlen]
    · intro hfit
      have hbefore : ((confirmedTo coll d.To).map (fun x => (x.Amount : Int))).sum
          ≤ 2 ^ 63 - 1 := by
        have hnn : (0 : Int) ≤ (d.Amount : Int) := Int.ofNat_nonneg _
        rw [htot] at hfit
        omega
      refine ⟨_, hsum coll hbefore, ?_⟩
      rw [hsum _ hfit, htot]

/-- Scenario B: after the event `confirmed`, the sample donation is counted
for `u2` and its amount is the confirmed total. -/
theorem C4_confirmed_event_is_counted_witness :
    (useCaseImpl.GetDonatesNumber sample.deps Env.ok
        (useCaseImpl.handleEvent sample.deps sample.env sample.collNew "confirmed").coll
        (some sample.ctx) "u2").result
      = .ok ((confirmedTo
          (useCaseImpl.handleEvent sample.deps sample.env sample.collNew "confirmed").coll
          "u2").length : Int) ∧
    (confirmedTo (useCaseImpl.handleEvent sample.deps sample.env sample.collNew "confirmed").coll
      "u2").length = 1 ∧
    (useCaseImpl.GetAmountOfDonations sample.deps Env.ok
        (useCaseImpl.handleEvent sample.deps sample.env sample.collNew "confirmed").coll
        (some sample.ctx) "u2").result
      = .ok ((confirmedTo
          (useCaseImpl.handleEvent sample.deps sample.env sample.collNew "confirmed").coll
          "u2").map (fun x => (x.Amount : Int))).sum :=
  ⟨(C4_confirmed_event_is_counted sample.deps sample.env Env.ok sample.collNew sample.ctx
      "confirmed" { OrderID := "id1", Status := 2, Url := "" } sample.donate
      rfl rfl rfl rfl (by decide) (by decide) rfl rfl).2.2.1,
   by decide,
   (C4_confirmed_event_is_counted sample.deps sample.env Env.ok sample.collNew sample.ctx
      "confirmed" { OrderID := "id1", Status := 2, Url := "" } sample.donate
      rfl rfl rfl rfl (by decide) (by decide) rfl rfl).2.2.2.1 (by decide)⟩

/-- C5: for a decodable settlement event and distinct payment status
constants, the calls one iteration of the loop makes are exactly, in this
order: the store update, and then, with `d` the record the update returned,
nothing if the update failed; for `Processing` a single `Notify` with payload
`id, status "processing", url` to `d.From`; for `Confirmed`
`events.DonateUser(d.From, d.To, short d)` followed by `Notify` with payload
`id, status "confirmed"` to `d.From`, whatever `DonateUser` and `Notify`
return; for `Failed` a single `Notify` with payload `id, status "failed"`; for
any other status nothing. -/
theorem C5_handler_downstream_calls (deps : Deps) (env : Env) (coll : Collection)
    (evt : String) (pu : payment.PaymentUpdate)
    (hdist : deps.status.Distinct)
    (hu : deps.UnpackPaymentEvent evt = .ok pu) :
    (∀ err, (storageImpl.Update deps env coll pu.OrderID [("status", .int pu.Status)]).1
        = .error err →
      (useCaseImpl.handleEvent deps env coll evt).calls
        = [.storageUpdate pu.OrderID [("status", .int pu.Status)]]) ∧
    (∀ d, (storageImpl.Update deps env coll pu.OrderID [("status", .int pu.Status)]).1 = .ok d →
      (pu.Status = deps.status.Processing →
        (useCaseImpl.handleEvent deps env coll evt).calls
          = [.storageUpdate pu.OrderID [("status", .int pu.Status)],
             .notificationsNotify .PaymentUpdate
               [("id", .str d.ID), ("status", .str "processing"), ("url", .str pu.Url)]
               d.From]) ∧
      (pu.Status = deps.status.Confirmed →
        (useCaseImpl.handleEvent deps env coll evt).calls
          = [.storageUpdate pu.OrderID [("status", .int pu.Status)],
             .eventsDonateUser d.From d.To { ID := d.ID, Amount := d.Amount },
             .notificationsNotify .PaymentUpdate
               [("id", .str d.ID), ("status", .str "confirmed")] d.From]) ∧
      (pu.Status = deps.status.Failed →
        (useCaseImpl.handleEvent deps env coll evt).calls
          = [.storageUpdate pu.OrderID [("status", .int pu.Status)],
             .notificationsNotify .PaymentUpdate
               [("id", .str d.ID), ("status", .str "failed")] d.From]) ∧
      (pu.Status ≠ deps.status.Processing → pu.Status ≠ deps.status.Confirmed →
        pu.Status ≠ deps.status.Failed →
        (useCaseImpl.handleEvent deps env coll evt).calls
          = [.storageUpdate pu.OrderID [("status", .int pu.Status)]])) := by
  obtain ⟨hpc, hpf, hcf⟩ := hdist
  have hk1 : ∀ (i : String) (v : Value), setKey [("id", .str i)] "status" v
      = [("id", .str i), ("status", v)] := fun _ _ => rfl
  have hk2 : ∀ (i : String) (v w : Value), setKey [("id", .str i), ("status", v)] "url" w
      = [("id", .str i), ("status", v), ("url", w)] := fun _ _ _ => rfl
  constructor
  · intro err herr
    rcases hU : storageImpl.Update deps env coll pu.OrderID [("status", .int pu.Status)]
      with ⟨res, coll1⟩
    rw [hU] at herr
    simp only at herr
    subst herr
    simp only [useCaseImpl.handleEvent, hu, useCaseImpl.UpdateDonate, hU]
  · intro d hok
    rcases hU : storageImpl.Update deps env coll pu.OrderID [("status", .int pu.Status)]
      with ⟨res, coll1⟩
    rw [hU] at hok
    simp only at hok
    subst hok
    refine ⟨?_, ?_, ?_, ?_⟩
    · intro h
      simp only [useCaseImpl.handleEvent, hu, useCaseImpl.UpdateDonate, hU]
      simp only [h, if_true, hk1, hk2]
      cases env.notifyErr <;> rfl
    · intro h
      have hne : ¬ deps.status.Confirmed = deps.status.Processing := fun e => hpc e.symm
      simp only [useCaseImpl.handleEvent, hu, useCaseImpl.UpdateDonate, hU]
      simp only [h, hne, if_true, if_false, hk1]
      cases env.notifyErr <;> rfl
    · intro h
      have hne1 : ¬ deps.status.Failed = deps.status.Processing := fun e => hpf e.symm
      have hne2 : ¬ deps.status.Failed = deps.status.Confirmed := fun e => hcf e.symm
      simp only [useCaseImpl.handleEvent, hu, useCaseImpl.UpdateDonate, hU]
      simp only [h, hne1, hne2, if_true, if_false, hk1]
      cases env.notifyErr <;> rfl
    · intro h1 h2 h3
      simp only [useCaseImpl.handleEvent, hu, useCaseImpl.UpdateDonate, hU]
      simp only [h1, h2, h3, if_false]

/-- Scenarios A and B: the calls made for the events `processing` and
`confirmed` on the sample donation, the ledger call failing in the second. -/
theorem C5_handler_downstream_calls_witness :
    (useCaseImpl.handleEvent sample.deps sample.env sample.collNew "processing").calls
      = [.storageUpdate "id1" [("status", .int 1)],
         .notificationsNotify .PaymentUpdate
           [("id", .str "id1"), ("status", .str "processing"), ("url", .str "https://pay")]
           "u1"] ∧
    (useCaseImpl.handleEvent sample.deps
        { sample.env with donateUserErr := some (.driver "unavailable") }
        sample.collNew "confirmed").calls
      = [.storageUpdate "id1" [("status", .int 2)],
         .eventsDonateUser "u1" "u2" { ID := "id1", Amount := 10000 },
         .notificationsNotify .PaymentUpdate
           [("id", .str "id1"), ("status", .str "confirmed")] "u1"] :=
  ⟨((C5_handler_downstream_calls sample.deps sample.env sample.collNew "processing"
      { OrderID := "id1", Status := 1, Url := "https://pay" } (by decide) rfl).2
      { sample.donate with Status := 1 } rfl).1 rfl,
   ((C5_handler_downstream_calls sample.deps
      { sample.env with donateUserErr := some (.driver "unavailable") } sample.collNew
      "confirmed" { OrderID := "id1", Status := 2, Url := "" } (by decide) rfl).2
      { sample.donate with Status := 2 } rfl).2.1 rfl⟩

end Settlement

section Settlement

open usecase mongo storage

theorem map_updateFirst {β : Type} (g : Donate → β) (p : Donate → Bool) (f : Donate → Donate)
    (coll : Collection) (hg : ∀ d, g (f d) = g d) :
    (updateFirst p f coll).map g = coll.map g := by
  induction coll with
  | nil => rfl
  | cons a rest ih =>
    by_cases ha : p a = true
    · simp [updateFirst, ha, hg]
    · simp [updateFirst, ha, ih]

/-- C6, as stated, fails: the sample donation was created at time 100; the
event `confirmed` is applied while the clock reads 200; the update succeeds,
the status changes, and the stored `UpdatedAt` is still 100. -/
theorem C6_updated_at_refreshed_counterexample :
    sample.env.now = 200 ∧
    sample.collNew = [sample.donate] ∧
    sample.donate.UpdatedAt = 100 ∧
    (storageImpl.Update sample.deps sample.env sample.collNew "id1" [("status", .int 2)]).1
      = .ok { sample.donate with Status := donates.Confirmed } ∧
    (useCaseImpl.handleEvent sample.deps sample.env sample.collNew "confirmed").coll
      = [{ sample.donate with Status := donates.Confirmed }] ∧
    (useCaseImpl.handleEvent sample.deps sample.env sample.collNew "confirmed").coll.map
        (fun d => d.UpdatedAt) = [100] ∧
    (useCaseImpl.handleEvent sample.deps sample.env sample.collNew "confirmed").coll.map
        (fun d => d.UpdatedAt) ≠ [sample.env.now] := by
  refine ⟨rfl, by decide, rfl, rfl, by decide, by decide, by decide⟩

/-- C6, amended: a settlement event that the loop applies changes the status
field of the identified record and nothing else. The record the store returns
and keeps is the previous record with the event's status: its `UpdatedAt`,
`CreatedAt` and every other field are the previous ones, whatever the clock
reads. No other record changes: the collection afterwards is the previous one
with that single record, the first of the event's id, replaced in place, all
records before and after it being the same. -/
theorem C6_update_keeps_updated_at (deps : Deps) (env : Env) (coll : Collection)
    (evt : String) (pu : payment.PaymentUpdate) (d : Donate)
    (hu : deps.UnpackPaymentEvent evt = .ok pu) (hm : env.mongoErr = none)
    (hd : coll.find? (fun x => decide (x.ID = pu.OrderID)) = some d) :
    (storageImpl.Update deps env coll pu.OrderID [("status", .int pu.Status)]).1
      = .ok { d with Status := pu.Status } ∧
    (useCaseImpl.handleEvent deps env coll evt).coll.find? (fun x => decide (x.ID = pu.OrderID))
      = some { ID := d.ID, From := d.From, To := d.To, Amount := d.Amount, Status := pu.Status,
               Post := d.Post, CreatedAt := d.CreatedAt, UpdatedAt := d.UpdatedAt } ∧
    (useCaseImpl.handleEvent deps env coll evt).coll.map (fun x => x.UpdatedAt)
      = coll.map (fun x => x.UpdatedAt) ∧
    (useCaseImpl.handleEvent deps env coll evt).coll.map (fun x => x.CreatedAt)
      = coll.map (fun x => x.CreatedAt) ∧
    (∃ before after : List Donate,
      coll = before ++ d :: after ∧
      (∀ x ∈ before, x.ID ≠ pu.OrderID) ∧
      (useCaseImpl.handleEvent deps env coll evt).coll
        = before ++ { ID := d.ID, From := d.From, To := d.To, Amount := d.Amount,
                      Status := pu.Status, Post := d.Post, CreatedAt := d.CreatedAt,
                      UpdatedAt := d.UpdatedAt } :: after) ∧
    (useCaseImpl.handleEvent deps env coll evt).coll.length = coll.length ∧
    (∀ x ∈ (useCaseImpl.handleEvent deps env coll evt).coll,
      x ∈ coll ∨ x = { d with Status := pu.Status }) := by
  obtain ⟨hc, hf⟩ := handleEvent_find deps env coll evt pu d hu hm hd
  obtain ⟨before, after, h1, h2, h3⟩ := updateFirst_split
    (fun x => decide (x.ID = pu.OrderID)) (fun x => { x with Status := pu.Status }) coll d hd
  refine ⟨?_, hf, ?_, ?_, ⟨before, after, h1, ?_, ?_⟩, ?_, ?_⟩
  · rw [Update_status_result deps env coll pu.OrderID pu.Status hm, hd]
  · rw [hc]
    exact map_updateFirst _ _ _ coll (fun _ => rfl)
  · rw [hc]
    exact map_updateFirst _ _ _ coll (fun _ => rfl)
  · intro x hx
    have := h2 x hx
    simpa using this
  · rw [hc, h3]
  · rw [hc, h3]
    conv_rhs => rw [h1]
    simp
  · intro x hx
    rw [hc, h3] at hx
    rw [h1]
    rcases List.mem_append.mp hx with hx | hx
    · exact Or.inl (List.mem_append.mpr (Or.inl hx))
    · rcases List.mem_cons.mp hx with hx | hx
      · exact Or.inr hx
      · exact Or.inl (List.mem_append.mpr (Or.inr (List.mem_cons_of_mem _ hx)))

/-- The amended C6 on the sample donation: after the event `confirmed`, handled
at time 200, the `UpdatedAt` values of the collection are those from before. -/
theorem C6_update_keeps_updated_at_witness :
    (useCaseImpl.handleEvent sample.deps sample.env sample.collNew "confirmed").coll.map
        (fun x => x.UpdatedAt)
      = sample.collNew.map (fun x => x.UpdatedAt) :=
  (C6_update_keeps_updated_at sample.deps sample.env sample.collNew "confirmed"
    { OrderID := "id1", Status := 2, Url := "" } sample.donate rfl rfl (by decide)).2.2.1

/-- C7, as stated, fails: the collection holding the confirmed sample donation
is reachable (one `MakeDonate`, one event `confirmed`), and the event `failed`
for the same donation moves it from `Confirmed` to `Failed`; the event
`confirmed` then moves it back from `Failed` to `Confirmed`. -/
theorem C7_terminal_states_counterexample :
    Reachable sample.deps sample.collConfirmed ∧
    sample.collConfirmed = [{ sample.donate with Status := donates.Confirmed }] ∧
    (useCaseImpl.handleEvent sample.deps sample.env sample.collConfirmed "failed").coll
      = [{ sample.donate with Status := donates.Failed }] ∧
    Reachable sample.deps
      (useCaseImpl.handleEvent sample.deps sample.env sample.collConfirmed "failed").coll ∧
    (useCaseImpl.handleEvent sample.deps sample.env
        (useCaseImpl.handleEvent sample.deps sample.env sample.collConfirmed "failed").coll
        "confirmed").coll
      = [{ sample.donate with Status := donates.Confirmed }] := by
  have hreach : Reachable sample.deps sample.collConfirmed :=
    Reachable.handle sample.env sample.collNew "confirmed"
      (Reachable.makeDonate Env.ok [] (some sample.ctx) (some sample.donate) Reachable.init)
  exact ⟨hreach, by decide, by decide,
    Reachable.handle sample.env sample.collConfirmed "failed" hreach, by decide⟩

/-- C7, amended: the loop does not guard transitions. In every collection
(reachable or not), when the loop applies a decodable settlement event to the
donation it identifies, that donation's status afterwards is the status the
event carries, whatever it was before (`Confirmed` and `Failed` included), the
other records being untouched; so a donation keeps its status exactly under
events that carry that same status. -/
theorem C7_status_follows_event (deps : Deps) (env : Env) (coll : Collection)
    (evt : String) (pu : payment.PaymentUpdate) (d : Donate)
    (hu : deps.UnpackPaymentEvent evt = .ok pu) (hm : env.mongoErr = none)
    (hd : coll.find? (fun x => decide (x.ID = pu.OrderID)) = some d) :
    (useCaseImpl.handleEvent deps env coll evt).coll
      = updateFirst (fun x => decide (x.ID = pu.OrderID))
          (fun x => { x with Status := pu.Status }) coll ∧
    ((useCaseImpl.handleEvent deps env coll evt).coll.find?
        (fun x => decide (x.ID = pu.OrderID))).map (fun x => x.Status) = some pu.Status ∧
    ((useCaseImpl.handleEvent deps env coll evt).coll = coll ↔ pu.Status = d.Status) := by
  obtain ⟨hc, hf⟩ := handleEvent_find deps env coll evt pu d hu hm hd
  refine ⟨hc, by rw [hf]; rfl, ?_⟩
  obtain ⟨before, after, h1, _, h3⟩ := updateFirst_split
    (fun x => decide (x.ID = pu.OrderID)) (fun x => { x with Status := pu.Status }) coll d hd
  rw [hc, h3, h1]
  constructor
  · intro h
    have h2 := List.append_cancel_left h
    have h4 := (List.cons.inj h2).1
    exact congrArg Donate.Status h4
  · intro h
    have : ({ d with Status := pu.Status } : Donate) = d := by
      rw [h]
    rw [this]

/-- The amended C7 on the sample donation: the event `failed` leaves a
confirmed donation with the status 3 it carries. -/
theorem C7_status_follows_event_witness :
    ((useCaseImpl.handleEvent sample.deps sample.env sample.collConfirmed "failed").coll.find?
        (fun x => decide (x.ID = "id1"))).map (fun x => x.Status) = some 3 :=
  (C7_status_follows_event sample.deps sample.env sample.collConfirmed "failed"
    { OrderID := "id1", Status := 3, Url := "" } { sample.donate with Status := 2 }
    rfl rfl (by decide)).2.1

end Settlement

/-! ## Creation: failures and the success path; bulk lookup -/

section Creation

open usecase mongo storage

/-- When `storageImpl.Create` reports success, the record was appended. -/
theorem Create_ok_coll (deps : Deps) (env : Env) (coll : Collection) (donate : Donate)
    (h : (storageImpl.Create deps env coll donate).1 = none) :
    (storageImpl.Create deps env coll donate).2 = coll ++ [donate] := by
  unfold storageImpl.Create InsertOne at *
  cases hm : env.mongoErr with
  | some e => simp [hm] at h
  | none =>
    cases hi : env.insertedID with
    | none => simp [hm, hi] at h
    | some oid => simp [hm, hi]

/-- C8: for a donation that passes validation, if `storage.Create` succeeds
and publishing to `PAYMENT_TO` fails, `MakeDonate` returns an `Internal`
error, the collection is the previous one with the created record appended,
and the calls are the create and the publish only (no compensating delete or
update); and if `storage.Create` fails, `MakeDonate` returns that failure as
handed through `HandleError` and `mq.Pub` is never called. -/
theorem C8_create_and_publish_failures (deps : Deps) (env : Env) (coll : Collection)
    (ctx : Context) (donate : Donate)
    (hto : donate.To ≠ "") (hge : 5000 ≤ donate.Amount) :
    (∀ paymentEvent err, (storageImpl.Create deps env coll donate).1 = none →
      deps.PackPaymentEvent (payment.NewPayment donate.ID donate.From donate.Amount)
        = .ok paymentEvent →
      env.pubErr = some err →
      (useCaseImpl.MakeDonate deps env coll (some ctx) (some donate)).result
        = some (.svc .Internal ("can't send donate event to mq: " ++ err.Error)) ∧
      (useCaseImpl.MakeDonate deps env coll (some ctx) (some donate)).coll = coll ++ [donate] ∧
      (useCaseImpl.MakeDonate deps env coll (some ctx) (some donate)).calls
        = [.storageCreate donate, .mqPub .PAYMENT_TO paymentEvent]) ∧
    (∀ err, (storageImpl.Create deps env coll donate).1 = some err →
      (useCaseImpl.MakeDonate deps env coll (some ctx) (some donate)).result
        = some (deps.HandleError err ("can't create new donate: " ++ err.Error)) ∧
      (useCaseImpl.MakeDonate deps env coll (some ctx) (some donate)).calls
        = [.storageCreate donate] ∧
      (∀ topic msg, Call.mqPub topic msg
        ∉ (useCaseImpl.MakeDonate deps env coll (some ctx) (some donate)).calls)) := by
  have hnlt : ¬ donate.Amount < minDonateValue := by
    simp only [minDonateValue]
    omega
  constructor
  · intro paymentEvent err hcreate hpack hpub
    have hcoll := Create_ok_coll deps env coll donate hcreate
    rcases hC : storageImpl.Create deps env coll donate with ⟨res, coll1⟩
    rw [hC] at hcreate hcoll
    simp only at hcreate hcoll
    subst hcreate hcoll
    simp [useCaseImpl.MakeDonate, hto, hnlt, hC, hpack, hpub, svcerror.ErrInternal]
  · intro err hcreate
    rcases hC : storageImpl.Create deps env coll donate with ⟨res, coll1⟩
    rw [hC] at hcreate
    simp only at hcreate
    subst hcreate
    simp [useCaseImpl.MakeDonate, hto, hnlt, hC]

/-- The publish failing after the sample donation was stored: an `Internal`
error, and the record is in the collection. -/
theorem C8_create_and_publish_failures_witness :
    (useCaseImpl.MakeDonate sample.deps sample.envPubFails [] (some sample.ctx)
        (some sample.donate)).result
      = some (.svc .Internal "can't send donate event to mq: redis: connection refused") ∧
    (useCaseImpl.MakeDonate sample.deps sample.envPubFails [] (some sample.ctx)
        (some sample.donate)).coll = [] ++ [sample.donate] :=
  ⟨((C8_create_and_publish_failures sample.deps sample.envPubFails [] sample.ctx sample.donate
      (by decide) (by decide)).1 "id1" (.driver "redis: connection refused") rfl rfl rfl).1,
   ((C8_create_and_publish_failures sample.deps sample.envPubFails [] sample.ctx sample.donate
      (by decide) (by decide)).1 "id1" (.driver "redis: connection refused") rfl rfl rfl).2.1⟩

/-- C9: for every `from`, `to`, `post`, `amount` with `to` non-empty and
`amount >= 5000`, `NewDonate(from, to, post, amount)` followed by `MakeDonate`,
the store, the packing and the queue succeeding, returns `nil` and appends
exactly one record to the collection: the new donation, whose status is `New`,
whose `CreatedAt` equals its `UpdatedAt`, and whose `From`, `To`, `Post` and
`Amount` are the given values; the calls are the create and one publish to
`PAYMENT_TO` of the packed payment built from that record's `ID`, `From` and
`Amount`. -/
theorem C9_creation_path (deps : Deps) (env : Env) (coll : Collection) (ctx : Context)
    (now : Time) (xid from_ to_ post : String) (amount : Nat) (paymentEvent : String)
    (hto : to_ ≠ "") (hge : 5000 ≤ amount)
    (hm : env.mongoErr = none) (hid : env.insertedID ≠ none)
    (hpack : deps.PackPaymentEvent
      { OrderID := xid, PayerID := from_, Amount := amount } = .ok paymentEvent)
    (hpub : env.pubErr = none) :
    (useCaseImpl.MakeDonate deps env coll (some ctx)
        (some (NewDonate now xid from_ to_ post amount))).result = none ∧
    (useCaseImpl.MakeDonate deps env coll (some ctx)
        (some (NewDonate now xid from_ to_ post amount))).coll
      = coll ++ [NewDonate now xid from_ to_ post amount] ∧
    (NewDonate now xid from_ to_ post amount).Status = donates.New ∧
    (NewDonate now xid from_ to_ post amount).CreatedAt
      = (NewDonate now xid from_ to_ post amount).UpdatedAt ∧
    (NewDonate now xid from_ to_ post amount).From = from_ ∧
    (NewDonate now xid from_ to_ post amount).To = to_ ∧
    (NewDonate now xid from_ to_ post amount).Post = post ∧
    (NewDonate now xid from_ to_ post amount).Amount = amount ∧
    (useCaseImpl.MakeDonate deps env coll (some ctx)
        (some (NewDonate now xid from_ to_ post amount))).calls
      = [.storageCreate (NewDonate now xid from_ to_ post amount),
         .mqPub .PAYMENT_TO paymentEvent] ∧
    deps.PackPaymentEvent (payment.NewPayment (NewDonate now xid from_ to_ post amount).ID
        (NewDonate now xid from_ to_ post amount).From
        (NewDonate now xid from_ to_ post amount).Amount) = .ok paymentEvent := by
  have hnlt : ¬ amount < minDonateValue := by
    simp only [minDonateValue]
    omega
  have hpack2 : deps.PackPaymentEvent (payment.NewPayment xid from_ amount)
      = .ok paymentEvent := hpack
  cases hi : env.insertedID with
  | none => exact absurd hi hid
  | some oid =>
    refine ⟨?_, ?_, rfl, rfl, rfl, rfl, rfl, rfl, ?_, hpack⟩ <;>
      simp [useCaseImpl.MakeDonate, NewDonate, hto, hnlt, storageImpl.Create, InsertOne, hm, hi,
        hpack2, hpub]

/-- Scenario A, creation: the sample donation, created through `NewDonate` and
`MakeDonate`, is the one record of the collection, with status `New`. -/
theorem C9_creation_path_witness :
    (useCaseImpl.MakeDonate sample.deps Env.ok [] (some sample.ctx)
        (some (NewDonate 100 "id1" "u1" "u2" "" 10000))).coll
      = [] ++ [NewDonate 100 "id1" "u1" "u2" "" 10000] ∧
    (useCaseImpl.MakeDonate sample.deps Env.ok [] (some sample.ctx)
        (some (NewDonate 100 "id1" "u1" "u2" "" 10000))).calls
      = [.storageCreate (NewDonate 100 "id1" "u1" "u2" "" 10000), .mqPub .PAYMENT_TO "id1"] :=
  ⟨(C9_creation_path sample.deps Env.ok [] sample.ctx 100 "id1" "u1" "u2" "" 10000 "id1"
      (by decide) (by decide) rfl (by decide) rfl rfl).2.1,
   (C9_creation_path sample.deps Env.ok [] sample.ctx 100 "id1" "u1" "u2" "" 10000 "id1"
      (by decide) (by decide) rfl (by decide) rfl rfl).2.2.2.2.2.2.2.2.1⟩

/-- The loop that appends the short projections one by one builds their list. -/
theorem foldl_Short (allDonates : List Donate) (acc : List Short) :
    allDonates.foldl (fun result donate => result ++ [donate.Short]) acc
      = acc ++ allDonates.map (fun donate => donate.Short) := by
  induction allDonates generalizing acc with
  | nil => simp
  | cons d rest ih => simp [List.foldl_cons, ih]

/-- C10: `GetDonatesByIDs` with a non-nil context and an empty, non-nil id
list returns an empty result and no error, makes no call and leaves the
collection alone; with a non-empty id list it makes the one call
`storage.GetByIDs(ids)` and returns, in the order the store returned them,
exactly the short projections `ID, Amount` of the records the store returned,
one per record (and the store's failure, handed through `HandleError`, if the
store failed). -/
theorem C10_GetDonatesByIDs (deps : Deps) (env : Env) (coll : Collection) (ctx : Context)
    (ids : List String) :
    (useCaseImpl.GetDonatesByIDs deps env coll (some ctx) (some [])).result = .ok [] ∧
    (useCaseImpl.GetDonatesByIDs deps env coll (some ctx) (some [])).calls = [] ∧
    (useCaseImpl.GetDonatesByIDs deps env coll (some ctx) (some [])).coll = coll ∧
    (ids ≠ [] →
      (useCaseImpl.GetDonatesByIDs deps env coll (some ctx) (some ids)).calls
        = [.storageGetByIDs ids] ∧
      (∀ allDonates, storageImpl.GetByIDs deps env coll ids = .ok allDonates →
        (useCaseImpl.GetDonatesByIDs deps env coll (some ctx) (some ids)).result
          = .ok (allDonates.map (fun d => ({ ID := d.ID, Amount := d.Amount } : Short))) ∧
        ((allDonates.map (fun d => ({ ID := d.ID, Amount := d.Amount } : Short))).length
          = allDonates.length)) ∧
      (∀ err, storageImpl.GetByIDs deps env coll ids = .error err →
        (useCaseImpl.GetDonatesByIDs deps env coll (some ctx) (some ids)).result
          = .error (deps.HandleError err ("can't get donates by ids: " ++ err.Error)))) := by
  refine ⟨rfl, rfl, rfl, ?_⟩
  intro hne
  have hlen : ¬ ids.length = 0 := by
    intro h
    exact hne (List.length_eq_zero.mp h)
  refine ⟨?_, ?_, ?_⟩
  · simp only [useCaseImpl.GetDonatesByIDs, hlen, if_false]
    cases storageImpl.GetByIDs deps env coll ids <;> rfl
  · intro allDonates hok
    refine ⟨?_, by simp⟩
    simp only [useCaseImpl.GetDonatesByIDs, hlen, if_false, hok, foldl_Short]
    simp [Donate.Short]
  · intro err herr
    simp only [useCaseImpl.GetDonatesByIDs, hlen, if_false, herr]

/-- The bulk lookup of the sample donation by its id. -/
theorem C10_GetDonatesByIDs_witness :
    (useCaseImpl.GetDonatesByIDs sample.deps Env.ok sample.collNew (some sample.ctx)
        (some ["id1"])).result
      = .ok ([sample.donate].map (fun d => ({ ID := d.ID, Amount := d.Amount } : Short))) :=
  ((C10_GetDonatesByIDs sample.deps Env.ok sample.collNew sample.ctx ["id1"]).2.2.2
    (by decide)).2.1 [sample.donate] (by rfl) |>.1

end Creation

/-! ## The status of a created donation -/

section CreationStatus

open usecase mongo storage

/-- The calls of the transport layer's `MakeDonate` are those of the service
operation on a donation built by `NewDonate`. -/
theorem delivery_calls (deps : Deps) (unmarshal : String → Except GoError delivery.reqMakeDonate)
    (env : Env) (coll : Collection) (ctx : Context) (rawMessage : String) :
    (delivery.websocket.MakeDonate deps unmarshal env coll ctx rawMessage).calls = [] ∨
    ∃ req : delivery.reqMakeDonate,
      (delivery.websocket.MakeDonate deps unmarshal env coll ctx rawMessage).calls
      = (useCaseImpl.MakeDonate deps env coll (some ctx)
          (some (NewDonate env.now env.xid ctx.userID req.User req.Post req.Amount))).calls := by
  unfold delivery.websocket.MakeDonate delivery.parseMakeDonate
  cases unmarshal rawMessage with
  | error e => exact Or.inl rfl
  | ok req =>
    refine Or.inr ⟨req, ?_⟩
    simp only []
    rcases hM : useCaseImpl.MakeDonate deps env coll (some ctx)
      (some (NewDonate env.now env.xid ctx.userID req.User req.Post req.Amount))
      with ⟨res, coll1, calls⟩
    cases res <;> rfl

/-- The only record `MakeDonate` hands to the store is the one it was given. -/
theorem MakeDonate_create_arg (deps : Deps) (env : Env) (coll : Collection)
    (ctx : Option Context) (donate : Option Donate) (d : Donate)
    (h : Call.storageCreate d ∈ (useCaseImpl.MakeDonate deps env coll ctx donate).calls) :
    donate = some d := by
  unfold useCaseImpl.MakeDonate at h
  cases ctx with
  | none => simp at h
  | some c =>
    cases donate with
    | none => simp at h
    | some x =>
      simp only at h
      split_ifs at h
      · simp at h
      · simp at h
      · rcases hC : storageImpl.Create deps env coll x with ⟨res, coll1⟩
        rw [hC] at h
        cases res with
        | some e =>
          simp at h
          rw [h]
        | none =>
          simp only at h
          cases hp : deps.PackPaymentEvent (payment.NewPayment x.ID x.From x.Amount) with
          | error e =>
            rw [hp] at h
            simp at h
            rw [h]
          | ok pe =>
            rw [hp] at h
            cases hpub : env.pubErr with
            | some e =>
              rw [hpub] at h
              simp at h
              rw [h]
            | none =>
              rw [hpub] at h
              simp at h
              rw [h]

/-- C11: `MakeDonate` neither sets nor checks the status of the donation it
is given. For every donation with non-empty `To` and `Amount >= 5000`,
whatever its `Status`: the record handed to `storage.Create` is the given one,
unchanged, and no other; when the driver call goes through, the collection is
the previous one with that very record, status included, appended; and the
returned error does not depend on the status. The invariant "created with
status `New`" therefore comes from `NewDonate` alone: every record the
transport layer's `MakeDonate` hands to the store has status `New`, while the
service operation accepts and persists a donation with status `Confirmed`. -/
theorem C11_MakeDonate_ignores_status (deps : Deps) (env : Env) (coll : Collection)
    (ctx : Context) (donate : Donate)
    (hto : donate.To ≠ "") (hge : 5000 ≤ donate.Amount) :
    (useCaseImpl.MakeDonate deps env coll (some ctx) (some donate)).calls.head?
      = some (.storageCreate donate) ∧
    (∀ d, Call.storageCreate d
        ∈ (useCaseImpl.MakeDonate deps env coll (some ctx) (some donate)).calls → d = donate) ∧
    (env.mongoErr = none →
      (useCaseImpl.MakeDonate deps env coll (some ctx) (some donate)).coll = coll ++ [donate]) ∧
    (∀ s : donates.Status,
      (useCaseImpl.MakeDonate deps env coll (some ctx) (some { donate with Status := s })).result
        = (useCaseImpl.MakeDonate deps env coll (some ctx) (some donate)).result) ∧
    (∀ (unmarshal : String → Except GoError delivery.reqMakeDonate) (rawMessage : String)
        (d : Donate),
      Call.storageCreate d
        ∈ (delivery.websocket.MakeDonate deps unmarshal env coll ctx rawMessage).calls →
      d.Status = donates.New) ∧
    (env.mongoErr = none →
      ∃ d : Donate, d.To ≠ "" ∧ 5000 ≤ d.Amount ∧ d.Status = donates.Confirmed ∧
        (useCaseImpl.MakeDonate deps env coll (some ctx) (some d)).calls.head?
          = some (.storageCreate d) ∧
        (useCaseImpl.MakeDonate deps env coll (some ctx) (some d)).coll = coll ++ [d]) := by
  have hnlt : ¬ donate.Amount < minDonateValue := by
    simp only [minDonateValue]
    omega
  have hhead : ∀ x : Donate, x.To = donate.To → x.Amount = donate.Amount →
      (useCaseImpl.MakeDonate deps env coll (some ctx) (some x)).calls.head?
        = some (.storageCreate x) := by
    intro x h1 h2
    have hto2 : x.To ≠ "" := by rw [h1]; exact hto
    have hnlt2 : ¬ x.Amount < minDonateValue := by rw [h2]; exact hnlt
    simp only [useCaseImpl.MakeDonate, hto2, hnlt2, if_false]
    split
    · rfl
    · split
      · rfl
      · split <;> rfl
  have hcoll : ∀ x : Donate, x.To = donate.To → x.Amount = donate.Amount →
      env.mongoErr = none →
      (useCaseImpl.MakeDonate deps env coll (some ctx) (some x)).coll = coll ++ [x] := by
    intro x h1 h2 hm
    have hto2 : x.To ≠ "" := by rw [h1]; exact hto
    have hnlt2 : ¬ x.Amount < minDonateValue := by rw [h2]; exact hnlt
    cases hi : env.insertedID <;>
      cases hp : deps.PackPaymentEvent (payment.NewPayment x.ID x.From x.Amount) <;>
      cases hpub : env.pubErr <;>
      simp [useCaseImpl.MakeDonate, hto2, hnlt2, storageImpl.Create, InsertOne, hm, hi, hp, hpub]
  refine ⟨hhead donate rfl rfl, ?_, hcoll donate rfl rfl, ?_, ?_, ?_⟩
  · intro d hd
    have := MakeDonate_create_arg deps env coll (some ctx) (some donate) d hd
    exact (Option.some.inj this).symm
  · intro s
    cases hm : env.mongoErr <;> cases hi : env.insertedID <;>
      cases hp : deps.PackPaymentEvent
        (payment.NewPayment donate.ID donate.From donate.Amount) <;>
      cases hpub : env.pubErr <;>
      simp [useCaseImpl.MakeDonate, hto, hnlt, storageImpl.Create, InsertOne, hm, hi, hp, hpub]
  · intro unmarshal rawMessage d hd
    rcases delivery_calls deps unmarshal env coll ctx rawMessage with h | ⟨req, h⟩
    · rw [h] at hd
      simp at hd
    · rw [h] at hd
      have := MakeDonate_create_arg deps env coll (some ctx) _ d hd
      rw [← Option.some.inj this]
      rfl
  · intro hm
    exact ⟨{ donate with Status := donates.Confirmed }, hto, hge, rfl,
      hhead _ rfl rfl, hcoll _ rfl rfl hm⟩

/-- A donation handed over with status `Confirmed` is stored as it is, while
the record stored for a client message has status `New`. -/
theorem C11_MakeDonate_ignores_status_witness :
    (useCaseImpl.MakeDonate sample.deps Env.ok [] (some sample.ctx)
        (some sample.confirmedDonate)).coll = [] ++ [sample.confirmedDonate] ∧
    sample.confirmedDonate.Status = donates.Confirmed ∧
    (delivery.websocket.MakeDonate sample.deps sample.unmarshal Env.ok [] sample.ctx
        "donate-10000-to-u2").coll.map (fun d => d.Status) = [donates.New] :=
  ⟨(C11_MakeDonate_ignores_status sample.deps Env.ok [] sample.ctx sample.confirmedDonate
      (by decide) (by decide)).2.2.1 rfl,
   rfl, by decide⟩

end CreationStatus
